import Mathlib

/-!
Verification of the SSA-Compiler mid-end (CFG builder, SSA builder, SCCP,
LICM, DCE) against its natural-language specification.

The Python sources under `src/` are shallowly embedded here:

* the IR model (`src/ssa/cfg.py`) becomes plain inductive types, with basic
  blocks identified by their (unique) labels and the object graph replaced by
  a label-keyed block store carried inside each `CFG`;
* Python exceptions (`AssertionError`, `TypeError`, `AttributeError`, ...)
  become an `Except PyErr` result;
* machine integers are `Int` (Python integers are unbounded, so no wrap-around
  modelling is needed); Python floor division `//` and modulo `%` are
  `Int.fdiv` / `Int.fmod`;
* unbounded `while` loops become fuel-bounded recursion; the fuel is always
  generous enough for the concrete programs evaluated here, and theorems that
  quantify over all inputs are proved for every fuel value;
* Python `set` iteration (whose order is implementation defined but fixed per
  run) is replaced by deterministic insertion-ordered lists; every concrete
  result proved below is insensitive to that order.

Instruction identity: the Python instruction classes are `@dataclass(eq=False)`,
so sets of instructions are identity based.  Identity of an instruction is its
(block label, position) pair, which is what the DCE embedding uses for its
live sets.
-/

/-- Python exceptions raised by the mid-end, as an error type. -/
inductive PyErr where
  | typeError (msg : String)
  | attributeError (msg : String)
  | assertionError (msg : String)
  | valueError (msg : String)
  | keyError (msg : String)
  | runtimeError (msg : String)
  | indexError (msg : String)
deriving DecidableEq, Repr, Inhabited

/-- `SSAVariable` (cfg.py): a name, an optional base pointer (name, version)
and an optional version. -/
structure SSAVar where
  name : String
  basePointer : Option (String × Nat) := none
  version : Option Nat := none
deriving DecidableEq, Repr, Inhabited

/-- `SSAValue` (cfg.py): an SSA variable or an integer constant. -/
inductive SSAValue where
  | var (v : SSAVar)
  | const (value : Int)
deriving DecidableEq, Repr, Inhabited

/-- `Operation` (cfg.py): the right-hand side operations `OpCall`, `OpBinary`,
`OpLoad`, `OpUnary`. -/
inductive Operation where
  | call (name : String) (args : List SSAValue)
  | binary (type : String) (left right : SSAValue)
  | load (addr : SSAVar)
  | unary (type : String) (val : SSAValue)
deriving DecidableEq, Repr, Inhabited

/-- The right-hand side of an `InstAssign`: `Operation | SSAValue`. -/
inductive Rhs where
  | op (o : Operation)
  | val (v : SSAValue)
deriving DecidableEq, Repr, Inhabited

/-- The instruction kinds of cfg.py.  `InstCmp` and `InstUncondJump` reference
their target blocks; blocks are identified by their (unique) labels.
`InstPhi` is not listed here: in the source ϕ nodes live only in the separate
`phi_nodes` dict of a block, never in the `instructions` list, and they are
modelled by `PhiNode` below. -/
inductive Inst where
  | assign (lhs : SSAVar) (rhs : Rhs)
  | cmp (left right : SSAValue) (thenBlock elseBlock : String)
  | uncondJump (targetBlock : String)
  | ret (value : Option SSAValue)
  | arrayInit (lhs : SSAVar) (dimensions : List Nat)
  | store (dstAddress : SSAVar) (value : SSAValue)
  | getArgument (lhs : SSAVar) (index : Nat)
deriving DecidableEq, Repr, Inhabited

/-- `InstPhi` (cfg.py): lhs variable and the map basic-block label → incoming
value, kept in insertion order. -/
structure PhiNode where
  lhs : SSAVar
  rhs : List (String × SSAValue)
deriving DecidableEq, Repr, Inhabited

/-- Variable type information (`Type` in semantic.py): base type and array
dimensions; `is_array` holds iff `dimensions` is nonempty. -/
structure TypeInfo where
  baseType : String
  dimensions : List Nat
deriving DecidableEq, Repr, Inhabited

/-- `Type.is_array` (semantic.py). -/
def TypeInfo.isArray (t : TypeInfo) : Bool :=
  t.dimensions.length > 0

/-- A symbol table, flattened to the name → type mapping that
`lookup_variable` realises through the scope chain. -/
abbrev SymTab : Type := List (String × TypeInfo)

/-- `SymbolTable.lookup_variable` (semantic.py). -/
def SymTab.lookupVariable (st : SymTab) (name : String) : Option TypeInfo :=
  (List.find? (fun p => p.1 = name) st).map (fun p => p.2)

/-- `BasicBlock` (cfg.py): label, role tag, symbol table, ϕ nodes (an
insertion-ordered dict keyed by variable name), instructions, predecessor and
successor lists (held as labels). -/
structure BB where
  label : String
  meta : Option String := none
  symtab : SymTab := []
  phiNodes : List (String × PhiNode) := []
  instructions : List Inst := []
  preds : List String := []
  succ : List String := []
deriving DecidableEq, Repr, Inhabited

/-- The block store: the set of `BasicBlock` objects of one builder run,
keyed by their unique labels. -/
abbrev BlockStore : Type := List (String × BB)

/-- Look a block up by label. -/
def BlockStore.get? (s : BlockStore) (lbl : String) : Option BB :=
  (List.find? (fun p => p.1 = lbl) s).map (fun p => p.2)

/-- Look a block up by label, defaulting to an empty block (in Python the
reference always exists). -/
def BlockStore.getD (s : BlockStore) (lbl : String) : BB :=
  (s.get? lbl).getD { label := lbl }

/-- Replace the block stored under `lbl` (mutation of the Python object). -/
def BlockStore.set (s : BlockStore) (lbl : String) (b : BB) : BlockStore :=
  match s with
  | [] => []
  | (l, b') :: rest =>
      if l = lbl then (l, b) :: rest else (l, b') :: BlockStore.set rest lbl b

/-- Apply `f` to the block stored under `lbl` (single pass; absent labels
are untouched, matching a no-op on a missing Python object). -/
def BlockStore.modify (s : BlockStore) (lbl : String) (f : BB → BB) : BlockStore :=
  match s with
  | [] => []
  | (l, b) :: rest =>
      if l = lbl then (l, f b) :: rest else (l, b) :: BlockStore.modify rest lbl f

/-- `CFG` (cfg.py): function name, entry and exit labels, together with the
block store the builder produced. -/
structure CFG where
  name : String
  entry : String
  exit : String
  blocks : BlockStore
deriving DecidableEq, Repr, Inhabited

/-- Python `list.append` guarded by a membership test, as used by
`BasicBlock.add_child` / `add_pred`: append `x` at the end iff it is not
already present (written as a single pass). -/
def appendIfAbsent (l : List String) (x : String) : List String :=
  match l with
  | [] => [x]
  | y :: ys => if y = x then y :: ys else y :: appendIfAbsent ys x

/-- `BasicBlock.add_child` (cfg.py:220-224): append `c` to `p.succ` and `p` to
`c.preds`, each only if absent. -/
def addChild (s : BlockStore) (p c : String) : BlockStore :=
  let s := s.modify p (fun b => { b with succ := appendIfAbsent b.succ c })
  s.modify c (fun b => { b with preds := appendIfAbsent b.preds p })

/-- One step of `CFG.__iter__` (cfg.py:316-325): depth-first traversal from
the entry using a stack (Python pops the last element; the stack here keeps
its top at the head, so pushing appends the reversed successor list at the
front). -/
def cfgIterGo (s : BlockStore) : Nat → List String → List String → List String
  | 0, _, _ => []
  | _ + 1, [], _ => []
  | fuel + 1, n :: q, visited =>
      if n ∈ visited then cfgIterGo s fuel q visited
      else
        n :: cfgIterGo s fuel
          ((((s.getD n).succ.filter (fun x => ¬ x ∈ visited)).reverse) ++ q)
          (n :: visited)

/-- A fuel bound large enough for any traversal of the store: every block is
visited at most once and each visit pushes at most all successors. -/
def storeFuel (s : BlockStore) : Nat :=
  s.foldl (fun acc p => acc + 1 + p.2.succ.length) 1 + 1

/-- `CFG.__iter__` (cfg.py): the labels of the blocks reachable from the
entry, in the order the Python generator yields them. -/
def cfgIterList (cfg : CFG) : List String :=
  cfgIterGo cfg.blocks (storeFuel cfg.blocks) [cfg.entry] []

/-- Association-list lookup used for the various Python dicts. -/
def assocGet? {α : Type} (l : List (String × α)) (k : String) : Option α :=
  (List.find? (fun p => p.1 = k) l).map (fun p => p.2)

/-- Association-list lookup with a default. -/
def assocGetD {α : Type} (l : List (String × α)) (k : String) (d : α) : α :=
  (assocGet? l k).getD d

/-- Update (or insert at the end) a key of an association list, like a Python
dict assignment. -/
def assocSet {α : Type} : List (String × α) → String → α → List (String × α)
  | [], k, v => [(k, v)]
  | (k', v') :: rest, k, v =>
      if k' = k then (k, v) :: rest else (k', v') :: assocSet rest k v

/-- Set equality of two label lists (Python compares `set`s). -/
def listSetEq (a b : List String) : Bool :=
  a.all (fun x => x ∈ b) && b.all (fun x => x ∈ a)

/-- Set intersection keeping the order of the first list
(`set.intersection`). -/
def listInter (a b : List String) : List String :=
  a.filter (fun x => x ∈ b)

/-- `prune_unreachable` (dominance.py:27-41): walk backwards from the exit
block and drop, from every visited block, the predecessors that are not
reachable from the entry.  The Python `while` loop over an explicit stack is
fuel-bounded. -/
def pruneUnreachableGo (reach : List String) :
    Nat → List String → List String → BlockStore → BlockStore
  | 0, _, _, s => s
  | _ + 1, [], _, s => s
  | fuel + 1, bb :: q, visited, s =>
      let b := s.getD bb
      let visited := if bb ∈ visited then visited else bb :: visited
      let keep := b.preds.filter (fun p => p ∈ reach)
      let s := s.set bb { b with preds := keep }
      let newOnes := keep.filter (fun p => ¬ p ∈ visited)
      pruneUnreachableGo reach fuel (newOnes ++ q) (newOnes ++ visited) s

/-- `prune_unreachable(cfg, reachable_blocks)` applied to the store. -/
def pruneUnreachable (cfg : CFG) (reach : List String) : BlockStore :=
  pruneUnreachableGo reach (storeFuel cfg.blocks) [cfg.exit] [] cfg.blocks

/-- One pass of the dominator fixpoint (`_compute_dominators`, dominance.py:
63-84): recompute the dominator set of every non-entry reachable block.
Returns the updated map and whether anything changed.  The lookup
`dominators[block.preds[0]]` is unguarded in the source and raises `KeyError`
when the first predecessor is not reachable. -/
def domPass (entry : String) (reach : List String) (s : BlockStore) :
    List String → List (String × List String) → Bool →
    Except PyErr (List (String × List String) × Bool)
  | [], doms, changed => .ok (doms, changed)
  | block :: rest, doms, changed =>
      if block = entry then domPass entry reach s rest doms changed
      else
        let preds := (s.getD block).preds
        match preds with
        | [] =>
            let newDom := [block]
            if listSetEq newDom (assocGetD doms block []) then
              domPass entry reach s rest doms changed
            else domPass entry reach s rest (assocSet doms block newDom) true
        | p0 :: ps =>
            match assocGet? doms p0 with
            | none => .error (.keyError p0)
            | some d0 =>
                let inter := (ps.filter (fun x => x ∈ reach)).foldl
                  (fun acc p => listInter acc (assocGetD doms p [])) d0
                let newDom := if block ∈ inter then inter else inter ++ [block]
                if listSetEq newDom (assocGetD doms block []) then
                  domPass entry reach s rest doms changed
                else domPass entry reach s rest (assocSet doms block newDom) true

/-- The `while changed` fixpoint loop of `_compute_dominators`. -/
def domFix (entry : String) (reach : List String) (s : BlockStore) :
    Nat → List (String × List String) → Except PyErr (List (String × List String))
  | 0, doms => .ok doms
  | fuel + 1, doms => do
      let (doms, changed) ← domPass entry reach s reach doms false
      if changed then domFix entry reach s fuel doms else .ok doms

/-- `_compute_dominators` (dominance.py:53-85): entry dominates itself, every
other reachable block starts with the full reachable set, then iterate to a
fixpoint. -/
def computeDominators (entry : String) (reach : List String) (s : BlockStore) :
    Except PyErr (List (String × List String)) :=
  let init := (entry, [entry]) ::
    (reach.filter (fun b => ¬ b = entry)).map (fun b => (b, reach))
  domFix entry reach s (reach.length + 2) init

/-- `DominatorTree` (dominance.py:7-24). -/
structure DomTree where
  entry : String
  idom : List (String × Option String)
  reversedIdom : List (String × List String)
  dominators : List (String × List String)
deriving DecidableEq, Repr, Inhabited

/-- Pick the immediate dominator: the proper dominator with the largest
dominator set, first strict maximum winning (the `for candidate in doms` scan
of `_build_dominator_tree`). -/
def pickIdom (doms : List (String × List String)) :
    List String → Option String × Int → Option String
  | [], (best, _) => best
  | c :: rest, (best, bestCount) =>
      let cnt : Int := (assocGetD doms c []).length
      if cnt > bestCount then pickIdom doms rest (some c, cnt)
      else pickIdom doms rest (best, bestCount)

/-- `_build_dominator_tree` (dominance.py:88-121). -/
def buildDominatorTree (doms : List (String × List String)) (entry : String) :
    DomTree :=
  let idom := doms.foldl
    (fun acc p =>
      let block := p.1
      if block = entry then acc
      else
        let proper := p.2.filter (fun x => ¬ x = block)
        match proper with
        | [] => assocSet acc block none
        | _ => assocSet acc block (pickIdom doms proper (none, -1)))
    [(entry, none)]
  let reversedIdom := idom.foldl
    (fun acc p =>
      match p.2 with
      | none => acc
      | some d => assocSet acc d (assocGetD acc d [] ++ [p.1]))
    []
  ⟨entry, idom, reversedIdom, doms⟩

/-- `compute_dominator_tree` (dominance.py:44-50): compute the labels
reachable from the entry, prune stale predecessors (this mutates the CFG),
then compute dominator sets and the tree.  Returns the tree together with the
mutated CFG. -/
def computeDominatorTree (cfg : CFG) : Except PyErr (DomTree × CFG) := do
  let reach := cfgIterList cfg
  let s := pruneUnreachable cfg reach
  let doms ← computeDominators cfg.entry reach s
  .ok (buildDominatorTree doms cfg.entry, { cfg with blocks := s })

/-- `DominatorTree.traverse` (dominance.py:14-24): depth-first walk of the
dominator tree from `start`, pop-last stack discipline. -/
def domTraverse (rid : List (String × List String)) :
    Nat → List String → List String → List String
  | 0, _, _ => []
  | _ + 1, [], _ => []
  | fuel + 1, n :: q, visited =>
      let visited := n :: visited
      let children := (assocGetD rid n []).filter (fun x => ¬ x ∈ visited)
      n :: domTraverse rid fuel (children.reverse ++ q) visited

/-- The inner climb of `compute_dominance_frontier_graph` (dominance.py:
134-140): from `idom(pred)` walk up the dominator tree adding `node` to each
frontier until reaching `idom(node)`; the asserts on a missing dominator
become errors. -/
def dfClimb (idom : List (String × Option String)) (node : String)
    (target : Option String) :
    Nat → String → List (String × List String) →
    Except PyErr (List (String × List String))
  | 0, _, df => .ok df
  | fuel + 1, d, df =>
      if some d = target then .ok df
      else
        let df := assocSet df d (appendIfAbsent (assocGetD df d []) node)
        match assocGet? idom d with
        | none => .error (.keyError d)
        | some none => .error (.assertionError "idom is None")
        | some (some d') => dfClimb idom node target fuel d' df

/-- `compute_dominance_frontier_graph` (dominance.py:124-141). -/
def computeDominanceFrontier (cfg : CFG) (tree : DomTree) :
    Except PyErr (List (String × List String)) := do
  (cfgIterList cfg).foldlM
    (fun df node => do
      let b := cfg.blocks.getD node
      b.preds.foldlM
        (fun df pred => do
          if pred ∈ assocGetD tree.dominators node [] then .ok df
          else
            let df := assocSet df pred (appendIfAbsent (assocGetD df pred []) node)
            match assocGet? tree.idom pred with
            | none => .error (.keyError pred)
            | some none => .error (.assertionError "idom is None")
            | some (some d) =>
                dfClimb tree.idom node (assocGetD tree.idom node none)
                  (storeFuel cfg.blocks) d df)
        df)
    []

/-- Expressions of the AST in parser.py.  NOTE these dataclasses carry no
line/column fields: `BinaryOp(operator, left, right)`, `UnaryOp(operator,
operand)`, `Identifier(name)`, `IntegerLiteral(value)`,
`CallExpression(name, args)`, `ArrayAccess(base, indices)`, `ArrayInit()`. -/
inductive Expr where
  | binaryOp (operator : String) (left right : Expr)
  | unaryOp (operator : String) (operand : Expr)
  | identifier (name : String)
  | integerLiteral (value : Int)
  | callExpression (name : String) (args : List Expr)
  | arrayAccess (base : Expr) (indices : List Expr)
  | arrayInit

/-- `LValue` hierarchy of parser.py (these do carry line/column). -/
inductive LValue where
  | ident (line column : Nat) (name : String)
  | arrayAccess (line column : Nat) (base : String) (indices : List Expr)

/-- `Assignment` statement fields (parser.py). -/
structure AssignmentStx where
  name : String
  type : String
  value : Expr
  line : Nat
  column : Nat

/-- `Reassignment` statement fields (parser.py). -/
structure ReassignmentStx where
  lvalue : LValue
  value : Expr
  line : Nat
  column : Nat

mutual
/-- Statements of the AST in parser.py.  The `Block(Statement)` dataclass is
only ever produced by the parser as a function/arm body, never in statement
position, so it has no constructor here. -/
inductive Stmt where
  | assignment (name : String) (type : String) (value : Expr) (line column : Nat)
  | reassignment (lvalue : LValue) (value : Expr) (line column : Nat)
  | condition (condition : Expr) (thenBlock : BlockStx)
      (elseBlock : Option BlockStx) (line column : Nat)
  | forLoop (init : AssignmentStx) (condition : Expr)
      (update : ReassignmentStx) (body : BlockStx) (line column : Nat)
  | unconditionalLoop (body : BlockStx) (line column : Nat)
  | functionCall (name : String) (args : List Expr) (line column : Nat)
  | ret (value : Option Expr) (line column : Nat)
  | brk (line column : Nat)
  | cont (line column : Nat)

/-- `Block` (parser.py): statement list plus the symbol table the semantic
analyzer attached (None until analysis ran). -/
inductive BlockStx where
  | mk (statements : List Stmt) (symbolTable : Option SymTab)
end

/-- Statement list of a block. -/
def BlockStx.statements : BlockStx → List Stmt
  | .mk s _ => s

/-- Symbol table of a block. -/
def BlockStx.symbolTable : BlockStx → Option SymTab
  | .mk _ t => t

/-- `Argument` (parser.py). -/
structure FuncArg where
  name : String
  type : String

/-- `Function` (parser.py). -/
structure Func where
  name : String
  args : List FuncArg
  returnType : String
  body : BlockStx
  line : Nat
  column : Nat

/-- `Program` (parser.py); the global symbol table plays no role in the
builder. -/
structure Program where
  functions : List Func

/-- The mutable state of `CFGBuilder` (cfg.py:389-395) plus the
`current_cfg` fields and the block store holding every `BasicBlock` object
created so far. -/
structure Builder where
  blockCounter : Nat := 0
  tmpVarCounter : Nat := 0
  curBlock : Option String := none
  breakTargets : List String := []
  continueTargets : List String := []
  cfgName : String := ""
  cfgEntry : String := ""
  cfgExit : String := ""
  store : BlockStore := []
deriving Inhabited, DecidableEq, Repr

/-- The builder monad: mutable builder state, Python exceptions. -/
abbrev BM (α : Type) : Type := StateT Builder (Except PyErr) α

/-- `unwrap` (helpers.py): assert a value is not None. -/
def unwrapO {α : Type} : Option α → BM α
  | some x => pure x
  | none => throw (.assertionError "unwrap on None")

/-- `assert self.cur_block is not None` — returns the current block label. -/
def requireCur : BM String := do
  match (← get).curBlock with
  | some l => pure l
  | none => throw (.assertionError "Current block must be set")

/-- The current `BasicBlock` object. -/
def curBB : BM BB := do
  let l ← requireCur
  pure ((← get).store.getD l)

/-- `CFGBuilder._get_tmp_var` (cfg.py:397-400). -/
def getTmpVar : BM String := do
  let s ← get
  set { s with tmpVarCounter := s.tmpVarCounter + 1 }
  pure ("%" ++ toString s.tmpVarCounter)

/-- `CFGBuilder._new_block` (cfg.py:402-408): create block `BB<n>` and bump
the counter; the fresh object is recorded in the store. -/
def newBlock (symtab : SymTab) (meta : Option String) : BM String := do
  let s ← get
  let name := "BB" ++ toString s.blockCounter
  let bb : BB := { label := name, meta := meta, symtab := symtab }
  set { s with blockCounter := s.blockCounter + 1,
               store := s.store ++ [(name, bb)] }
  pure name

/-- `CFGBuilder._switch_to_block` (cfg.py:410-411). -/
def switchToBlock (lbl : String) : BM Unit :=
  modify (fun s => { s with curBlock := some lbl })

/-- `self.cur_block.append(inst)`. -/
def appendInst (i : Inst) : BM Unit := do
  let c ← requireCur
  modify (fun s =>
    { s with store := (s.store.modify c
        (fun b => { b with instructions := b.instructions ++ [i] })) })

/-- `self.cur_block.add_child(target)`. -/
def addChildCur (c : String) : BM Unit := do
  let p ← requireCur
  modify (fun s => { s with store := addChild s.store p c })

/-- Does the block fall through, i.e. `len(instructions) == 0 or not
isinstance(instructions[-1], (InstUncondJump, InstCmp, InstReturn))`
(cfg.py:672-673 and friends)? -/
def fallsThrough (b : BB) : Bool :=
  match b.instructions.getLast? with
  | none => true
  | some (.uncondJump _) => false
  | some (.cmp _ _ _ _) => false
  | some (.ret _) => false
  | some _ => true

/-- Row-major strides (cfg.py:531-537): `stride_i` is the product of the
dimensions after `i`. -/
def strideList (dims : List Nat) : List Nat :=
  (List.range dims.length).map (fun i => ((dims.drop (i + 1)).foldl (· * ·) 1))

/-- The tail of the address computation shared by `_build_array_access`
(cfg.py:557-565) and `_build_array_element_assignment` (cfg.py:627-635). -/
def finishAddr (baseVal : SSAValue) (cur : Option SSAVar) : BM SSAVar := do
  match cur with
  | none => do
      let t ← getTmpVar
      let addrTmp : SSAVar := { name := t }
      appendInst (.assign addrTmp (.val baseVal))
      pure addrTmp
  | some ca => do
      let t ← getTmpVar
      let addrTmp : SSAVar := { name := t }
      appendInst (.assign addrTmp (.op (.binary "+" baseVal (.var ca))))
      pure addrTmp

/-- `CFGBuilder._build_break` (cfg.py:806-813): `assert self.break_targets`,
then jump to the innermost break target. -/
def buildBreak : BM Unit := do
  let _ ← requireCur
  let s ← get
  match s.breakTargets.getLast? with
  | none => throw (.assertionError "self.break_targets")
  | some target => do
      addChildCur target
      appendInst (.uncondJump target)

/-- `CFGBuilder._build_continue` (cfg.py:815-821): no assert here — with an
empty target stack the statement is silently dropped. -/
def buildContinue : BM Unit := do
  let _ ← requireCur
  let s ← get
  match s.continueTargets.getLast? with
  | none => pure ()
  | some target => do
      addChildCur target
      appendInst (.uncondJump target)

mutual

/-- `CFGBuilder._build_subexpression` (cfg.py:484-518).  The class patterns of
the source name more positional sub-patterns than the AST dataclasses in
parser.py declare match arguments, so matching any such node raises
`TypeError` (a Python class pattern checks `isinstance` first, then compares
the positional-pattern count against `__match_args__`):
`case BinaryOp(_, _, op, left, right)` against the 3-field `BinaryOp`,
`case UnaryOp(_, _, op, operand)` against 2 fields, `case Identifier(_, _,
ident_name)` and `case IntegerLiteral(_, _, value)` against 1 field,
`case CallExpression(_, _, func_name, args)` against 2 fields.  Only
`case ArrayAccess()` and `case ArrayInit()` (no positional sub-patterns)
proceed. -/
def buildSubexpression : Nat → Expr → String → BM SSAValue
  | 0, _, _ => throw (.runtimeError "fuel exhausted")
  | fuel + 1, expr, name => do
    let _ ← requireCur
    match expr with
    | .binaryOp _ _ _ =>
        throw (.typeError "BinaryOp() accepts 3 positional sub-patterns (5 given)")
    | .unaryOp _ _ =>
        throw (.typeError "UnaryOp() accepts 2 positional sub-patterns (4 given)")
    | .identifier _ =>
        throw (.typeError "Identifier() accepts 1 positional sub-pattern (3 given)")
    | .integerLiteral _ =>
        throw (.typeError "IntegerLiteral() accepts 1 positional sub-pattern (3 given)")
    | .callExpression _ _ =>
        throw (.typeError "CallExpression() accepts 2 positional sub-patterns (4 given)")
    | .arrayAccess base indices => buildArrayAccess fuel base indices name
    | .arrayInit => pure (.var { name := name })

/-- The `for i, index_expr in enumerate(expr.indices)` loops of
`_build_array_access` (cfg.py:541-555) and
`_build_array_element_assignment` (cfg.py:611-625). -/
def buildIndexChain : Nat → List Expr → List Nat → Nat → Option SSAVar →
    BM (Option SSAVar)
  | 0, _, _, _, _ => throw (.runtimeError "fuel exhausted")
  | _ + 1, [], _, _, cur => pure cur
  | fuel + 1, e :: rest, strides, i, cur => do
      let t ← getTmpVar
      let indexVal ← buildSubexpression fuel e t
      match strides.get? i with
      | none => throw (.indexError "list index out of range")
      | some st => do
          let t2 ← getTmpVar
          let strideTmp : SSAVar := { name := t2 }
          appendInst (.assign strideTmp
            (.op (.binary "*" indexVal (.const (Int.ofNat st)))))
          match cur with
          | none => buildIndexChain fuel rest strides (i + 1) (some strideTmp)
          | some ca => do
              let t3 ← getTmpVar
              let addrTmp : SSAVar := { name := t3 }
              appendInst (.assign addrTmp
                (.op (.binary "+" (.var ca) (.var strideTmp))))
              buildIndexChain fuel rest strides (i + 1) (some addrTmp)

/-- `CFGBuilder._build_array_access` (cfg.py:520-570).  `base_val` is built
first; since every expression kind raises in `_build_subexpression` except
`ArrayInit` (and nested `ArrayAccess`, which recurses), the
`assert isinstance(expr.base, Identifier)` can only fail when this point is
reached. -/
def buildArrayAccess : Nat → Expr → List Expr → String → BM SSAValue
  | 0, _, _, _ => throw (.runtimeError "fuel exhausted")
  | fuel + 1, base, indices, name => do
      let _ ← requireCur
      let t ← getTmpVar
      let baseVal ← buildSubexpression fuel base t
      match base with
      | .identifier baseName => do
          let cb ← curBB
          let arrayType ← unwrapO (cb.symtab.lookupVariable baseName)
          if ¬ arrayType.isArray then
            throw (.assertionError "array_type.is_array")
          else do
            let strides := strideList arrayType.dimensions
            let cur ← buildIndexChain fuel indices strides 0 none
            let currentAddr ← finishAddr baseVal cur
            let lhs : SSAVar := { name := name }
            appendInst (.assign lhs (.op (.load currentAddr)))
            pure (.var lhs)
      | _ => throw (.assertionError "isinstance(expr.base, Identifier)")

/-- The argument-list comprehensions of `_build_subexpression` /
`_build_function_call`: build each expression with a fresh temporary. -/
def buildExprList : Nat → List Expr → BM (List SSAValue)
  | 0, _ => throw (.runtimeError "fuel exhausted")
  | _ + 1, [] => pure []
  | fuel + 1, e :: rest => do
      let t ← getTmpVar
      let v ← buildSubexpression fuel e t
      let vs ← buildExprList fuel rest
      pure (v :: vs)

/-- `CFGBuilder._build_assignment` (cfg.py:467-482). -/
def buildAssignment : Nat → String → Expr → BM Unit
  | 0, _, _ => throw (.runtimeError "fuel exhausted")
  | fuel + 1, name, value => do
      let _ ← requireCur
      let cb ← curBB
      let typeInfo ← unwrapO (cb.symtab.lookupVariable name)
      match value with
      | .arrayInit => appendInst (.arrayInit { name := name } typeInfo.dimensions)
      | _ => do
          let v ← buildSubexpression fuel value name
          match v with
          | .var sv =>
              if sv.name = name then pure ()
              else appendInst (.assign { name := name } (.val v))
          | _ => appendInst (.assign { name := name } (.val v))

/-- `CFGBuilder._build_array_element_assignment` (cfg.py:590-639). -/
def buildArrayElemAssign : Nat → String → List Expr → Expr → BM Unit
  | 0, _, _, _ => throw (.runtimeError "fuel exhausted")
  | fuel + 1, base, indices, value => do
      let _ ← requireCur
      let cb ← curBB
      let arrayType ← unwrapO (cb.symtab.lookupVariable base)
      if ¬ arrayType.isArray then
        throw (.assertionError "array_type.is_array")
      else do
        let strides := strideList arrayType.dimensions
        let baseVal : SSAValue := .var { name := base }
        let cur ← buildIndexChain fuel indices strides 0 none
        let currentAddr ← finishAddr baseVal cur
        let vt ← getTmpVar
        let valueVal ← buildSubexpression fuel value vt
        appendInst (.store currentAddr valueVal)

/-- `CFGBuilder._build_reassignment` (cfg.py:572-588). -/
def buildReassignment : Nat → LValue → Expr → BM Unit
  | 0, _, _ => throw (.runtimeError "fuel exhausted")
  | fuel + 1, lvalue, value => do
      let _ ← requireCur
      match lvalue with
      | .arrayAccess _ _ base indices =>
          buildArrayElemAssign fuel base indices value
      | .ident _ _ lname => do
          let v ← buildSubexpression fuel value lname
          match v with
          | .var sv =>
              if sv.name = lname then pure ()
              else appendInst (.assign { name := lname } (.val v))
          | _ => appendInst (.assign { name := lname } (.val v))

/-- `CFGBuilder._build_function_call` (cfg.py:641-647). -/
def buildFunctionCall : Nat → String → List Expr → BM Unit
  | 0, _, _ => throw (.runtimeError "fuel exhausted")
  | fuel + 1, name, args => do
      let _ ← requireCur
      let t ← getTmpVar
      let tmp : SSAVar := { name := t }
      let argVals ← buildExprList fuel args
      appendInst (.assign tmp (.op (.call name argVals)))

/-- `CFGBuilder._build_condition` (cfg.py:649-689).  Note the source restores
`old_block` (the block holding the Cmp) only inside the fall-through branch
of the else-arm handling: when the else-arm ends with an `InstUncondJump`,
`InstCmp` or `InstReturn`, the current block stays wherever the else-arm
lowering left it, and `then_block` is attached as a child of that block. -/
def buildCondition : Nat → Expr → BlockStx → Option BlockStx → BM Unit
  | 0, _, _, _ => throw (.runtimeError "fuel exhausted")
  | fuel + 1, cond, thenB, elseB => do
      let _ ← requireCur
      let thenSt ← unwrapO thenB.symbolTable
      let thenLbl ← newBlock thenSt (some "then")
      let cb ← curBB
      let mergeLbl ← newBlock cb.symtab (some "merge")
      let t ← getTmpVar
      let condVar ← buildSubexpression fuel cond t
      match elseB with
      | none => do
          appendInst (.cmp condVar (.const 0) mergeLbl thenLbl)
          addChildCur mergeLbl
      | some eb => do
          let elseSt ← unwrapO eb.symbolTable
          let elseLbl ← newBlock elseSt (some "else")
          appendInst (.cmp condVar (.const 0) elseLbl thenLbl)
          addChildCur elseLbl
          let oldLbl ← requireCur
          switchToBlock elseLbl
          buildBlockB fuel eb
          let cb2 ← curBB
          if fallsThrough cb2 then do
            addChildCur mergeLbl
            appendInst (.uncondJump mergeLbl)
            switchToBlock oldLbl
          else pure ()
      addChildCur thenLbl
      switchToBlock thenLbl
      buildBlockB fuel thenB
      let cb3 ← curBB
      if fallsThrough cb3 then do
        addChildCur mergeLbl
        appendInst (.uncondJump mergeLbl)
      else pure ()
      switchToBlock mergeLbl

/-- `CFGBuilder._build_for_loop` (cfg.py:691-749).  The six blocks are created
and the jump into the condition-check block is emitted; then
`for assignment in stmt.init:` iterates `stmt.init`, which parser.py types
and constructs as a single `Assignment` dataclass (parse_loop,
parser.py:481), so Python raises `TypeError: Assignment object is not
iterable`.  The remainder of the source function is unreachable and is not
modelled. -/
def buildForLoop : Nat → Expr → BlockStx → BM Unit
  | 0, _, _ => throw (.runtimeError "fuel exhausted")
  | _ + 1, _cond, body => do
      let _ ← requireCur
      let bodySt ← unwrapO body.symbolTable
      let initialCondLbl ← newBlock bodySt (some "condition check")
      let _preheaderLbl ← newBlock bodySt (some "loop preheader")
      let _bodyLbl ← newBlock bodySt (some "loop body")
      let _updateLbl ← newBlock bodySt (some "loop update")
      let _tailLbl ← newBlock bodySt (some "loop tail")
      let cb ← curBB
      let _exitLbl ← newBlock cb.symtab (some "loop exit")
      appendInst (.uncondJump initialCondLbl)
      addChildCur initialCondLbl
      switchToBlock initialCondLbl
      throw (.typeError "Assignment object is not iterable")

/-- `CFGBuilder._build_unconditional_loop` (cfg.py:751-789). -/
def buildUnconditionalLoop : Nat → BlockStx → BM Unit
  | 0, _ => throw (.runtimeError "fuel exhausted")
  | fuel + 1, body => do
      let _ ← requireCur
      let bodySt ← unwrapO body.symbolTable
      let preheaderLbl ← newBlock bodySt (some "uncond loop preheader")
      let bodyLbl ← newBlock bodySt (some "uncond loop body")
      let updateLbl ← newBlock bodySt (some "uncond loop update")
      let tailLbl ← newBlock bodySt (some "uncond loop tail")
      let cb ← curBB
      let exitLbl ← newBlock cb.symtab (some "uncond loop exit")
      appendInst (.uncondJump preheaderLbl)
      addChildCur preheaderLbl
      switchToBlock preheaderLbl
      appendInst (.uncondJump bodyLbl)
      addChildCur bodyLbl
      switchToBlock bodyLbl
      modify (fun s => { s with breakTargets := s.breakTargets ++ [tailLbl],
                                continueTargets := s.continueTargets ++ [updateLbl] })
      buildBlockB fuel body
      modify (fun s => { s with breakTargets := s.breakTargets.dropLast,
                                continueTargets := s.continueTargets.dropLast })
      let cb2 ← curBB
      if fallsThrough cb2 then do
        addChildCur updateLbl
        appendInst (.uncondJump updateLbl)
      else pure ()
      switchToBlock updateLbl
      appendInst (.uncondJump bodyLbl)
      addChildCur bodyLbl
      switchToBlock tailLbl
      appendInst (.uncondJump exitLbl)
      addChildCur exitLbl
      switchToBlock exitLbl

/-- `CFGBuilder._build_return` (cfg.py:791-804). -/
def buildReturn : Nat → Option Expr → BM Unit
  | 0, _ => throw (.runtimeError "fuel exhausted")
  | fuel + 1, value => do
      let _ ← requireCur
      match value with
      | some e => do
          let t ← getTmpVar
          let v ← buildSubexpression fuel e t
          appendInst (.ret (some v))
      | none => appendInst (.ret none)
      let ex := (← get).cfgExit
      addChildCur ex
      let cb ← curBB
      let lbl ← newBlock cb.symtab (some "after return")
      switchToBlock lbl

/-- `CFGBuilder._build_statement` (cfg.py:446-465). -/
def buildStatement : Nat → Stmt → BM Unit
  | 0, _ => throw (.runtimeError "fuel exhausted")
  | fuel + 1, stmt =>
      match stmt with
      | .assignment name _ value _ _ => buildAssignment fuel name value
      | .reassignment lvalue value _ _ => buildReassignment fuel lvalue value
      | .condition cond thenB elseB _ _ => buildCondition fuel cond thenB elseB
      | .forLoop _ cond _ body _ _ => buildForLoop fuel cond body
      | .unconditionalLoop body _ _ => buildUnconditionalLoop fuel body
      | .functionCall name args _ _ => buildFunctionCall fuel name args
      | .ret value _ _ => buildReturn fuel value
      | .brk _ _ => buildBreak
      | .cont _ _ => buildContinue

/-- The statement loop of `_build_block` (cfg.py:440-444). -/
def buildStatements : Nat → List Stmt → BM Unit
  | 0, _ => throw (.runtimeError "fuel exhausted")
  | _ + 1, [] => pure ()
  | fuel + 1, st :: rest => do
      buildStatement fuel st
      buildStatements fuel rest

/-- `CFGBuilder._build_block` (cfg.py:440-444). -/
def buildBlockB : Nat → BlockStx → BM Unit
  | 0, _ => throw (.runtimeError "fuel exhausted")
  | fuel + 1, b => do
      let _ ← requireCur
      buildStatements fuel b.statements

end

/-- The `for i, arg in enumerate(func.args)` loop of `_build_function`
(cfg.py:431-432). -/
def appendGetArgs : List FuncArg → Nat → BM Unit
  | [], _ => pure ()
  | arg :: rest, i => do
      appendInst (.getArgument { name := arg.name } i)
      appendGetArgs rest (i + 1)

/-- `CFGBuilder._build_function` (cfg.py:420-438). -/
def buildFunction (fuel : Nat) (f : Func) : BM CFG := do
  modify (fun s => { s with breakTargets := [], continueTargets := [] })
  let bodySt ← unwrapO f.body.symbolTable
  let entryLbl ← newBlock bodySt (some "entry")
  let exitLbl ← newBlock bodySt (some "exit")
  modify (fun s => { s with cfgName := f.name, cfgEntry := entryLbl,
                            cfgExit := exitLbl, curBlock := some entryLbl })
  appendGetArgs f.args 0
  buildBlockB fuel f.body
  let cb ← curBB
  if cb.succ = [] then addChildCur exitLbl else pure ()
  let s ← get
  pure { name := f.name, entry := entryLbl, exit := exitLbl, blocks := s.store }

/-- The function loop of `CFGBuilder.build` (cfg.py:413-418). -/
def buildFunctions (fuel : Nat) : List Func → BM (List CFG)
  | [] => pure []
  | f :: rest => do
      let c ← buildFunction fuel f
      let cs ← buildFunctions fuel rest
      pure (c :: cs)

/-- `CFGBuilder().build(program)`: run the builder from a fresh state.  The
fuel bounds the AST nesting depth and is ample for every program considered
here. -/
def builderBuild (p : Program) : Except PyErr (List CFG) :=
  ((buildFunctions 100 p.functions).run {}).map (fun r => r.1)

/-- Generic association-list lookup (Python dict keyed by tuples). -/
def kvGet? {κ α : Type} [DecidableEq κ] (l : List (κ × α)) (k : κ) : Option α :=
  (List.find? (fun p => p.1 = k) l).map (fun p => p.2)

/-- Generic association-list lookup with default. -/
def kvGetD {κ α : Type} [DecidableEq κ] (l : List (κ × α)) (k : κ) (d : α) : α :=
  (kvGet? l k).getD d

/-- Generic association-list update (Python dict assignment). -/
def kvSet {κ α : Type} [DecidableEq κ] : List (κ × α) → κ → α → List (κ × α)
  | [], k, v => [(k, v)]
  | (k', v') :: rest, k, v =>
      if k' = k then (k, v) :: rest else (k', v') :: kvSet rest k v

/-- The attribute access `self.cfg.args` performed by
`SSABuilder._insert_get_argument_instructions` (ssa.py:256).  The `CFG`
dataclass (cfg.py:297-303) declares only `name`, `entry` and `exit`, and no
code in the repository ever assigns an `args` attribute to a `CFG` object, so
this attribute access raises `AttributeError` for every `CFG`. -/
def cfgArgs (_ : CFG) : Except PyErr (List FuncArg) :=
  .error (.attributeError "CFG object has no attribute args")

/-- `SSABuilder._insert_get_argument_instructions` (ssa.py:254-258): append
one `InstGetArgument` per element of `self.cfg.args` to the entry block.  The
loop body is unreachable because the attribute access fails first. -/
def insertGetArgumentInstructions (cfg : CFG) : Except PyErr CFG := do
  let args ← cfgArgs cfg
  .ok { cfg with blocks := (cfg.blocks.modify cfg.entry (fun b =>
    { b with instructions := b.instructions ++
        (args.enum.map (fun p => .getArgument { name := p.2.name } p.1)) })) }

/-- `SSABuilder.build` (ssa.py:260-272): dominator tree, dominance frontier,
then `_insert_get_argument_instructions`.  The phases after that call
(`_compute_liveness`, `_put_phis`, `_rename_helper`) are not modelled: they
are unreachable, because `_insert_get_argument_instructions` raises
`AttributeError` on every `CFG` (see `cfgArgs`). -/
def ssaBuild (cfg : CFG) : Except PyErr CFG := do
  let (tree, cfg1) ← computeDominatorTree cfg
  let _df ← computeDominanceFrontier cfg1 tree
  insertGetArgumentInstructions cfg1

/-- `LatticeValue` (sccp.py:28-52): the three-level lattice. -/
inductive LatVal where
  | undef
  | const (v : Int)
  | nac
deriving DecidableEq, Repr, Inhabited

/-- `LatticeValue.is_undef`. -/
def LatVal.isUndef : LatVal → Bool
  | .undef => true
  | _ => false

/-- `LatticeValue.is_const`. -/
def LatVal.isConst : LatVal → Bool
  | .const _ => true
  | _ => false

/-- `LatticeValue.is_nac`. -/
def LatVal.isNac : LatVal → Bool
  | .nac => true
  | _ => false

/-- `LatticeValue.value` (None unless CONST). -/
def LatVal.value? : LatVal → Option Int
  | .const v => some v
  | _ => none

/-- `join` (sccp.py:55-64). -/
def latJoin (a b : LatVal) : LatVal :=
  match a with
  | .undef => b
  | _ =>
    match b with
    | .undef => a
    | _ =>
      if a.isNac || b.isNac then .nac
      else if a.value? = b.value? then a else .nac

/-- SSA variable keys `(name, version)`. -/
abbrev VKey : Type := String × Nat

/-- The identity of an instruction or ϕ node: its block and its position
(ϕ nodes are keyed by variable name).  Python instruction objects are
`@dataclass(eq=False)`, i.e. identity-hashed; during SCCP propagation and DCE
marking no instruction is mutated, so this pair is a faithful stand-in for
object identity. -/
inductive Site where
  | instSite (lbl : String) (idx : Nat)
  | phiSite (lbl : String) (name : String)
deriving DecidableEq, Repr, Inhabited

/-- `SCCP._iter_uses_from_vals` (sccp.py:162-167): the keys of the versioned
variables among the values. -/
def varKeysOf (vals : List SSAValue) : List VKey :=
  vals.filterMap (fun v =>
    match v with
    | .var sv => sv.version.map (fun ver => (sv.name, ver))
    | _ => none)

/-- `SCCP._iter_uses_from_rhs` (sccp.py:146-160). -/
def iterUsesFromRhs (rhs : Rhs) : List VKey :=
  match rhs with
  | .op (.load addr) => varKeysOf [.var addr]
  | .op (.binary _ l r) => varKeysOf [l, r]
  | .op (.unary _ v) => varKeysOf [v]
  | .op (.call _ args) => varKeysOf args
  | .val v => varKeysOf [v]

/-- Def/use metadata of `SCCP._build_metadata` (sccp.py:103-144); `inst_block`
is implicit in each `Site`. -/
structure SCCPMeta where
  uses : List (VKey × List Site) := []
  defs : List (VKey × Site) := []
deriving Repr, Inhabited

/-- Record one use. -/
def addUse (m : SCCPMeta) (k : VKey) (s : Site) : SCCPMeta :=
  let cur := kvGetD m.uses k []
  if s ∈ cur then m else { m with uses := kvSet m.uses k (cur ++ [s]) }

/-- Record uses for several keys. -/
def addUses (m : SCCPMeta) (ks : List VKey) (s : Site) : SCCPMeta :=
  ks.foldl (fun m k => addUse m k s) m

/-- `SCCP._build_metadata` (sccp.py:103-144). -/
def buildSCCPMeta (cfg : CFG) : SCCPMeta :=
  (cfgIterList cfg).foldl (fun m lbl =>
    let b := cfg.blocks.getD lbl
    let m := b.phiNodes.foldl (fun m p =>
      let phi := p.2
      let m := match phi.lhs.version with
        | some ver => { m with defs := kvSet m.defs (phi.lhs.name, ver) (.phiSite lbl p.1) }
        | none => m
      phi.rhs.foldl (fun m q => addUses m (varKeysOf [q.2]) (.phiSite lbl p.1)) m) m
    (b.instructions.foldl (fun (acc : SCCPMeta × Nat) inst =>
      let (m, i) := acc
      let m :=
        match inst with
        | .assign lhs rhs =>
            let m := match lhs.version with
              | some ver => { m with defs := kvSet m.defs (lhs.name, ver) (.instSite lbl i) }
              | none => m
            addUses m (iterUsesFromRhs rhs) (.instSite lbl i)
        | .cmp l r _ _ => addUses m (varKeysOf [l, r]) (.instSite lbl i)
        | .ret (some v) => addUses m (varKeysOf [v]) (.instSite lbl i)
        | .store addr v =>
            let m := addUses m (varKeysOf [.var addr]) (.instSite lbl i)
            addUses m (iterUsesFromRhs (.val v)) (.instSite lbl i)
        | .arrayInit lhs _ =>
            match lhs.version with
            | some ver => { m with defs := kvSet m.defs (lhs.name, ver) (.instSite lbl i) }
            | none => m
        | .getArgument lhs _ =>
            match lhs.version with
            | some ver => { m with defs := kvSet m.defs (lhs.name, ver) (.instSite lbl i) }
            | none => m
        | _ => m
      (m, i + 1)) (m, 0)).1) {}

/-- The mutable propagation state of `SCCP` (sccp.py:67-80). -/
structure SCCPSt where
  valueState : List (VKey × LatVal) := []
  executableBlocks : List String := []
  feasibleEdges : List (String × String) := []
  blockWorklist : List String := []
  varWorklist : List VKey := []
deriving DecidableEq, Repr, Inhabited

/-- `SCCP._get_lattice_of_value` (sccp.py:189-196). -/
def getLatticeOfValue (st : SCCPSt) (v : SSAValue) : LatVal :=
  match v with
  | .const k => .const k
  | .var sv =>
      match sv.version with
      | none => .undef
      | some ver => kvGetD st.valueState (sv.name, ver) (.undef)

/-- `SCCP._set_lattice` (sccp.py:198-203). -/
def setLattice (st : SCCPSt) (key : VKey) (val : LatVal) : SCCPSt :=
  let old := kvGetD st.valueState key .undef
  let new := latJoin old val
  if new = old then st
  else { st with valueState := kvSet st.valueState key new,
                 varWorklist := st.varWorklist ++ [key] }

/-- `SCCP._evaluate_phi` (sccp.py:244-262): join the incoming values over the
feasible predecessor edges only. -/
def evaluatePhi (store : BlockStore) (lbl : String) (phi : PhiNode)
    (st : SCCPSt) : Except PyErr SCCPSt :=
  let b := store.getD lbl
  let vals := b.preds.foldl (fun acc pred =>
    if (pred, lbl) ∈ st.feasibleEdges then
      match assocGet? phi.rhs pred with
      | none => acc
      | some incoming => acc ++ [getLatticeOfValue st incoming]
    else acc) []
  let result := vals.foldl latJoin .undef
  match phi.lhs.version with
  | none => .error (.assertionError "phi.lhs.version is not None")
  | some ver => .ok (setLattice st (phi.lhs.name, ver) result)

/-- `SCCP._mark_block_executable` (sccp.py:169-172). -/
def markBlockExecutable (lbl : String) (st : SCCPSt) : SCCPSt :=
  if lbl ∈ st.executableBlocks then st
  else { st with executableBlocks := st.executableBlocks ++ [lbl],
                 blockWorklist := st.blockWorklist ++ [lbl] }

/-- `SCCP._update_phis_for_edge` (sccp.py:184-187). -/
def updatePhisForEdge (store : BlockStore) (succ : String) (st : SCCPSt) :
    Except PyErr SCCPSt :=
  (store.getD succ).phiNodes.foldlM (fun st p => evaluatePhi store succ p.2 st) st

/-- `SCCP._mark_edge_feasible` (sccp.py:174-182). -/
def markEdgeFeasible (store : BlockStore) (pred succ : String) (st : SCCPSt) :
    Except PyErr SCCPSt :=
  if (pred, succ) ∈ st.feasibleEdges then .ok st
  else
    let st := { st with feasibleEdges := st.feasibleEdges ++ [(pred, succ)] }
    let st := if succ ∈ st.executableBlocks then st else markBlockExecutable succ st
    updatePhisForEdge store succ st

/-- `SCCP._truthy` (sccp.py:303-304). -/
def truthy (v : Int) : Int :=
  if v ≠ 0 then 1 else 0

/-- `SCCP._eval_binary` (sccp.py:306-348).  Python integers are unbounded and
`//`/`%` are floor division and floor modulo, i.e. `Int.fdiv`/`Int.fmod`;
division and modulo by zero are checked before dividing and produce NAC, so
the `try/except` of the source never fires and no error is raised. -/
def evalBinary (op : String) (a b : LatVal) : LatVal :=
  if a.isNac || b.isNac then .nac
  else if ¬ (a.isConst && b.isConst) then .undef
  else
    match a.value?, b.value? with
    | some x, some y =>
        if op = "+" then .const (x + y)
        else if op = "-" then .const (x - y)
        else if op = "*" then .const (x * y)
        else if op = "/" then
          if y = 0 then .nac else .const (Int.fdiv x y)
        else if op = "%" then
          if y = 0 then .nac else .const (Int.fmod x y)
        else if op = "==" then .const (if x = y then 1 else 0)
        else if op = "!=" then .const (if x ≠ y then 1 else 0)
        else if op = "<" then .const (if x < y then 1 else 0)
        else if op = "<=" then .const (if x ≤ y then 1 else 0)
        else if op = ">" then .const (if x > y then 1 else 0)
        else if op = ">=" then .const (if x ≥ y then 1 else 0)
        else if op = "&&" then .const (Int.land (truthy x) (truthy y))
        else if op = "||" then .const (if Int.lor (truthy x) (truthy y) ≠ 0 then 1 else 0)
        else .nac
    | _, _ => .nac

/-- `SCCP._eval_unary` (sccp.py:350-364). -/
def evalUnary (op : String) (v : LatVal) : LatVal :=
  if v.isNac then .nac
  else if ¬ v.isConst then .undef
  else
    match v.value? with
    | some x =>
        if op = "-" then .const (-x)
        else if op = "!" then .const (if x ≠ 0 then 0 else 1)
        else .nac
    | none => .nac

/-- `SCCP._evaluate_rhs` (sccp.py:271-288). -/
def evaluateRhs (st : SCCPSt) (rhs : Rhs) : LatVal :=
  match rhs with
  | .op (.load _) => .nac
  | .op (.binary op l r) =>
      evalBinary op (getLatticeOfValue st l) (getLatticeOfValue st r)
  | .op (.unary op v) => evalUnary op (getLatticeOfValue st v)
  | .op (.call _ _) => .nac
  | .val v => getLatticeOfValue st v

/-- `SCCP._evaluate_assign` (sccp.py:264-269). -/
def evaluateAssign (st : SCCPSt) (lhs : SSAVar) (rhs : Rhs) :
    Except PyErr SCCPSt :=
  let lv := evaluateRhs st rhs
  match lhs.version with
  | none => .error (.assertionError "lhs.version is not None")
  | some ver => .ok (setLattice st (lhs.name, ver) lv)

/-- `SCCP._evaluate_array_init` (sccp.py:290-293). -/
def evaluateArrayInit (st : SCCPSt) (lhs : SSAVar) : Except PyErr SCCPSt :=
  match lhs.version with
  | none => .error (.assertionError "lhs.version is not None")
  | some ver => .ok (setLattice st (lhs.name, ver) .nac)

/-- `SCCP._evaluate_get_argument` (sccp.py:295-298). -/
def evaluateGetArgument (st : SCCPSt) (lhs : SSAVar) : Except PyErr SCCPSt :=
  match lhs.version with
  | none => .error (.assertionError "lhs.version is not None")
  | some ver => .ok (setLattice st (lhs.name, ver) .nac)

/-- `SCCP._evaluate_branch` (sccp.py:366-381): with both operands CONST mark
the then edge when the constants are equal, else the else edge; with a NAC
operand mark both; otherwise (`else: return`) do nothing. -/
def evaluateBranch (store : BlockStore) (left right : SSAValue)
    (thenL elseL : String) (bb : String) (st : SCCPSt) :
    Except PyErr SCCPSt :=
  let lv := getLatticeOfValue st left
  let rv := getLatticeOfValue st right
  if lv.isConst && rv.isConst then
    if lv.value? = rv.value? then markEdgeFeasible store bb thenL st
    else markEdgeFeasible store bb elseL st
  else if lv.isNac || rv.isNac then do
    let st ← markEdgeFeasible store bb thenL st
    markEdgeFeasible store bb elseL st
  else .ok st

/-- `SCCP._process_block` (sccp.py:205-224): evaluate every ϕ, then every
instruction (`InstReturn` falls into the `case _: pass` arm, so no edge to
the exit block is ever marked from a Return). -/
def processBlock (store : BlockStore) (lbl : String) (st : SCCPSt) :
    Except PyErr SCCPSt := do
  let b := store.getD lbl
  let st ← b.phiNodes.foldlM (fun st p => evaluatePhi store lbl p.2 st) st
  b.instructions.foldlM (fun st inst =>
    match inst with
    | .assign lhs rhs => evaluateAssign st lhs rhs
    | .cmp l r t e => evaluateBranch store l r t e lbl st
    | .uncondJump target => markEdgeFeasible store lbl target st
    | .arrayInit lhs _ => evaluateArrayInit st lhs
    | .getArgument lhs _ => evaluateGetArgument st lhs
    | .store _ _ => .ok st
    | .ret _ => .ok st) st

/-- `SCCP._process_variable_users` (sccp.py:226-242). -/
def processVariableUsers (store : BlockStore) (meta : SCCPMeta) (key : VKey)
    (st : SCCPSt) : Except PyErr SCCPSt :=
  (kvGetD meta.uses key []).foldlM (fun st site =>
    match site with
    | .phiSite lbl name =>
        if lbl ∈ st.executableBlocks then
          match assocGet? (store.getD lbl).phiNodes name with
          | some phi => evaluatePhi store lbl phi st
          | none => .ok st
        else .ok st
    | .instSite lbl idx =>
        match (store.getD lbl).instructions.get? idx with
        | some (.assign lhs rhs) => evaluateAssign st lhs rhs
        | some (.cmp l r t e) =>
            if lbl ∈ st.executableBlocks then evaluateBranch store l r t e lbl st
            else .ok st
        | _ => .ok st) st

/-- The inner `while self.block_worklist` loop of `SCCP.run`. -/
def drainBlocks (store : BlockStore) : Nat → SCCPSt → Except PyErr SCCPSt
  | 0, st => .ok st
  | fuel + 1, st =>
      match st.blockWorklist with
      | [] => .ok st
      | lbl :: rest => do
          let st ← processBlock store lbl { st with blockWorklist := rest }
          drainBlocks store fuel st

/-- The inner `while self.var_worklist` loop of `SCCP.run`. -/
def drainVars (store : BlockStore) (meta : SCCPMeta) :
    Nat → SCCPSt → Except PyErr SCCPSt
  | 0, st => .ok st
  | fuel + 1, st =>
      match st.varWorklist with
      | [] => .ok st
      | key :: rest => do
          let st ← processVariableUsers store meta key { st with varWorklist := rest }
          drainVars store meta fuel st

/-- The outer propagation loop of `SCCP.run` (sccp.py:90-97). -/
def propagate (store : BlockStore) (meta : SCCPMeta) :
    Nat → SCCPSt → Except PyErr SCCPSt
  | 0, st => .ok st
  | fuel + 1, st =>
      if st.blockWorklist = [] ∧ st.varWorklist = [] then .ok st
      else do
        let st ← drainBlocks store 1000 st
        let st ← drainVars store meta 1000 st
        propagate store meta fuel st

/-- `SCCP._rewrite_cfg` (sccp.py:383-399): for every reachable block not in
the executable set (snapshot taken before mutating, as `list(self.cfg)`
does), detach it from its predecessors and successors and drop its entries
from the successors' ϕ maps.  `list.remove` is modelled by `List.erase`
(first occurrence); in every run evaluated here the element is present, so
the `ValueError` case cannot fire. -/
def rewriteCFG (cfg : CFG) (st : SCCPSt) : BlockStore :=
  (cfgIterList cfg).foldl (fun store lbl =>
    if lbl ∈ st.executableBlocks then store
    else
      let b := store.getD lbl
      let store := b.preds.foldl (fun s p =>
        s.modify p (fun pb => { pb with succ := pb.succ.erase lbl })) store
      let store := b.succ.foldl (fun s sc =>
        s.modify sc (fun sb =>
          { sb with preds := sb.preds.erase lbl,
                    phiNodes := sb.phiNodes.map (fun p =>
                      (p.1, { p.2 with
                              rhs := p.2.rhs.filter (fun q => ¬ q.1 = lbl) })) })) store
      store.modify lbl (fun bb => { bb with succ := [], preds := [] }))
    cfg.blocks

/-- `SCCP._replace_value` (sccp.py:483-488).  `SSAConstant(lv.value or 0)`
maps a missing value to 0 (and a zero value to itself). -/
def replaceValue (st : SCCPSt) (v : SSAValue) : SSAValue :=
  match v with
  | .var sv =>
      match sv.version with
      | some ver =>
          match kvGet? st.valueState (sv.name, ver) with
          | some lv => if lv.isConst then .const (lv.value?.getD 0) else v
          | none => v
      | none => v
  | _ => v

/-- `SCCP._replace_in_rhs` (sccp.py:468-481); an `OpLoad` right-hand side is
returned unchanged (no case of the source match handles it). -/
def replaceInRhs (st : SCCPSt) (rhs : Rhs) : Rhs :=
  match rhs with
  | .op (.binary op l r) => .op (.binary op (replaceValue st l) (replaceValue st r))
  | .op (.unary op v) => .op (.unary op (replaceValue st v))
  | .op (.call n args) => .op (.call n (args.map (replaceValue st)))
  | .op (.load a) => .op (.load a)
  | .val v => .val (replaceValue st v)

/-- One instruction slot of the `for i, inst in enumerate(bb.instructions)`
loop of `SCCP._fold_constants` (sccp.py:414-466): replace operands, collapse
constant `OpBinary`/`OpUnary` right-hand sides, and turn a `Cmp` whose
operands became constants into an `UncondJump`, detaching the not-chosen
successor (its `preds` entry is removed and the block keeps only the chosen
successor; the ϕ map of the detached successor is NOT touched here). -/
def foldInstSlot (st : SCCPSt) (lbl : String) (store : BlockStore) (i : Nat) :
    BlockStore :=
  let b := store.getD lbl
  match b.instructions.get? i with
  | none => store
  | some inst =>
    match inst with
    | .assign lhs rhs =>
        let newRhs := replaceInRhs st rhs
        let finalRhs :=
          match newRhs with
          | .op (.binary op l r) =>
              let folded := evalBinary op (getLatticeOfValue st l) (getLatticeOfValue st r)
              if folded.isConst then Rhs.val (.const (folded.value?.getD 0)) else newRhs
          | .op (.unary op v) =>
              let folded := evalUnary op (getLatticeOfValue st v)
              if folded.isConst then Rhs.val (.const (folded.value?.getD 0)) else newRhs
          | _ => newRhs
        store.modify lbl (fun bb =>
          { bb with instructions := bb.instructions.set i (.assign lhs finalRhs) })
    | .cmp l r tL eL =>
        let newL := replaceValue st l
        let newR := replaceValue st r
        let store := store.modify lbl (fun bb =>
          { bb with instructions := bb.instructions.set i (.cmp newL newR tL eL) })
        let lLat := getLatticeOfValue st newL
        let rLat := getLatticeOfValue st newR
        if lLat.isConst && rLat.isConst then
          let chosen := if lLat.value? = rLat.value? then tL else eL
          let b2 := store.getD lbl
          let store := b2.succ.foldl (fun s sc =>
            if ¬ sc = chosen then
              s.modify sc (fun sb => { sb with preds := sb.preds.erase lbl })
            else s) store
          store.modify lbl (fun bb =>
            { bb with instructions := bb.instructions.set i (.uncondJump chosen),
                      succ := [chosen] })
        else store
    | .ret (some v) =>
        store.modify lbl (fun bb =>
          { bb with instructions := bb.instructions.set i (.ret (some (replaceValue st v))) })
    | _ => store

/-- The per-block body of `SCCP._fold_constants` (sccp.py:404-466): narrow
every ϕ map to the current predecessor labels, replacing the incoming values,
then process every instruction slot. -/
def foldBlock (st : SCCPSt) (lbl : String) (store : BlockStore) : BlockStore :=
  let b := store.getD lbl
  let predLabels := b.preds
  let store := store.modify lbl (fun bb =>
    { bb with phiNodes := bb.phiNodes.map (fun p =>
        (p.1, { p.2 with rhs := ((p.2.rhs.filter (fun q => q.1 ∈ predLabels)).map
                  (fun q => (q.1, replaceValue st q.2))) })) })
  (List.range b.instructions.length).foldl (fun s i => foldInstSlot st lbl s i) store

/-- The `for bb in self.cfg` loop of `SCCP._fold_constants`: the Python
generator is lazy, so the successors explored after processing a block are
read from the already-mutated block (in particular a folded `Cmp` only
pushes its chosen successor). -/
def foldConstantsGo (st : SCCPSt) :
    Nat → List String → List String → BlockStore → BlockStore
  | 0, _, _, store => store
  | _ + 1, [], _, store => store
  | fuel + 1, n :: q, visited, store =>
      if n ∈ visited then foldConstantsGo st fuel q visited store
      else
        let store := foldBlock st n store
        let b := store.getD n
        foldConstantsGo st fuel
          (((b.succ.filter (fun x => ¬ x ∈ visited)).reverse) ++ q)
          (n :: visited) store

/-- `SCCP.run` (sccp.py:82-101): build metadata, mark the entry executable,
propagate to a fixpoint, then rewrite the CFG and fold constants. -/
def sccpRun (cfg : CFG) : Except PyErr CFG := do
  let meta := buildSCCPMeta cfg
  let st ← propagate cfg.blocks meta 1000 (markBlockExecutable cfg.entry {})
  let store1 := rewriteCFG cfg st
  let store2 := foldConstantsGo st (storeFuel store1) [cfg.entry] [] store1
  .ok { cfg with blocks := store2 }

/-- `LoopInfo` (licm.py:23-28); block references are labels, the block set is
an insertion-ordered list. -/
structure LoopInfo where
  header : String
  preheader : String
  blocks : List String
  exitBlock : String
deriving DecidableEq, Repr, Inhabited

/-- `LICM._collect_operands` (licm.py:198-209).  An `OpLoad` right-hand side
reaches the `return []` fall-through of the source: a Load contributes no
operands at all (and `_is_hoistable` has no Load case). -/
def collectOperands (rhs : Rhs) : List SSAValue :=
  match rhs with
  | .op (.binary _ l r) => [l, r]
  | .op (.unary _ v) => [v]
  | .op (.call _ args) => args
  | .op (.load _) => []
  | .val v => [v]

/-- Add a value to the use set of a key (Python `set.add`). -/
def addKV (uses : List (VKey × List VKey)) (k v : VKey) : List (VKey × List VKey) :=
  let cur := kvGetD uses k []
  if v ∈ cur then uses else kvSet uses k (cur ++ [v])

/-- `LICM._index_definitions` (licm.py:46-69): `def_to_block` maps each
versioned definition to its block label and `uses` maps each used key to the
definitions that use it. -/
def licmIndex (cfg : CFG) : List (VKey × String) × List (VKey × List VKey) :=
  (cfgIterList cfg).foldl (fun acc lbl =>
    let b := cfg.blocks.getD lbl
    let acc := b.phiNodes.foldl (fun (acc2 : List (VKey × String) × List (VKey × List VKey)) p =>
      let (d2b, uses) := acc2
      match p.2.lhs.version with
      | none => (d2b, uses)
      | some ver =>
          let defKey := (p.2.lhs.name, ver)
          let d2b := kvSet d2b defKey lbl
          let uses := p.2.rhs.foldl (fun uses q =>
            (varKeysOf [q.2]).foldl (fun uses useKey => addKV uses useKey defKey) uses) uses
          (d2b, uses)) acc
    b.instructions.foldl (fun (acc2 : List (VKey × String) × List (VKey × List VKey)) inst =>
      let (d2b, uses) := acc2
      match inst with
      | .assign lhs rhs =>
          match lhs.version with
          | none => (d2b, uses)
          | some ver =>
              let defKey := (lhs.name, ver)
              let d2b := kvSet d2b defKey lbl
              let uses := (varKeysOf (collectOperands rhs)).foldl
                (fun uses useKey => addKV uses useKey defKey) uses
              (d2b, uses)
      | _ => (d2b, uses)) acc) ([], [])

/-- `LICM._dominates` (licm.py:96-101). -/
def dominatesB (tree : DomTree) (a b : String) : Bool :=
  match assocGet? tree.dominators b with
  | none => false
  | some doms => a ∈ doms

/-- The stack walk of `LICM._collect_loop_blocks` (licm.py:103-114). -/
def collectLoopBlocksGo (store : BlockStore) :
    Nat → List String → List String → List String
  | 0, _, seen => seen
  | _ + 1, [], seen => seen
  | fuel + 1, node :: stack, seen =>
      if node ∈ seen then collectLoopBlocksGo store fuel stack seen
      else collectLoopBlocksGo store fuel ((store.getD node).preds ++ stack)
        (seen ++ [node])

/-- `LICM._collect_loop_blocks`: the header plus every block reaching the
tail backwards. -/
def collectLoopBlocks (store : BlockStore) (header tail : String) : List String :=
  collectLoopBlocksGo store (storeFuel store) [tail] [header]

/-- `LICM._find_loops` (licm.py:71-94): for every CFG edge `bb → succ` with
`succ` dominating `bb`, assert that the back-edge source has exactly two
successors (`assert len(bb.succ) == 2  # one back edge and one forward
edge`), collect the loop body, and assert the unique outside predecessor of
the header. -/
def findLoops (cfg : CFG) (tree : DomTree) : Except PyErr (List LoopInfo) :=
  (cfgIterList cfg).foldlM (fun loops bb =>
    (cfg.blocks.getD bb).succ.foldlM (fun loops succ =>
      if ¬ dominatesB tree succ bb then .ok loops
      else
        let succList := (cfg.blocks.getD bb).succ
        if ¬ (succList.length = 2) then
          .error (.assertionError "len(bb.succ) == 2")
        else
          let loopBlocks := collectLoopBlocks cfg.blocks succ bb
          let preheaders := (cfg.blocks.getD succ).preds.filter
            (fun p => ¬ p ∈ loopBlocks)
          match preheaders with
          | [ph] =>
              match succList with
              | [s0, s1] =>
                  let e := if ¬ s0 = succ then s0 else s1
                  .ok (loops ++ [⟨succ, ph, loopBlocks, e⟩])
              | _ => .error (.assertionError "len(bb.succ) == 2")
          | _ => .error (.assertionError "len(preheaders) == 1")) loops) []

/-- `LICM._operand_is_invariant` (licm.py:211-226). -/
def operandIsInvariant (d2b : List (VKey × String)) (loopBlocks : List String)
    (invariantDefs : List VKey) (operand : SSAValue) : Except PyErr Bool :=
  match operand with
  | .const _ => .ok true
  | .var sv =>
      match sv.version with
      | none => .error (.assertionError "operand.version is not None")
      | some ver =>
          let key := (sv.name, ver)
          if key ∈ invariantDefs then .ok true
          else
            match kvGet? d2b key with
            | none => .ok false
            | some db => .ok (¬ db ∈ loopBlocks)

/-- The short-circuiting `all(...)` over the operands (licm.py:193-196). -/
def allOperandsInvariant (d2b : List (VKey × String)) (loopBlocks : List String)
    (invariantDefs : List VKey) : List SSAValue → Except PyErr Bool
  | [] => .ok true
  | op :: rest => do
      let b ← operandIsInvariant d2b loopBlocks invariantDefs op
      if b then allOperandsInvariant d2b loopBlocks invariantDefs rest
      else .ok false

/-- `LICM._is_hoistable` (licm.py:160-196).  Only an `OpCall` right-hand side
is rejected outright; an `OpLoad` right-hand side passes this guard and,
having no collected operands, is judged hoistable whenever the dominance
conditions hold. -/
def isHoistable (tree : DomTree) (d2b : List (VKey × String))
    (uses : List (VKey × List VKey)) (loopBlocks : List String)
    (exitBlock : String) (invariantDefs : List VKey)
    (inst : Inst) (instBlock : String) : Except PyErr Bool :=
  match inst with
  | .assign lhs rhs =>
      if (match rhs with | .op (.call _ _) => true | _ => false) then .ok false
      else if ¬ dominatesB tree instBlock exitBlock then .ok false
      else
        match lhs.version with
        | none => .error (.assertionError "inst.lhs.version is not None")
        | some ver =>
            let defKey := (lhs.name, ver)
            let useList := kvGetD uses defKey []
            if useList.any (fun u =>
                match kvGet? d2b u with
                | none => false
                | some ub => ub ∈ loopBlocks && ¬ dominatesB tree instBlock ub) then
              .ok false
            else
              let operands := collectOperands rhs
              if operands.isEmpty then .ok true
              else allOperandsInvariant d2b loopBlocks invariantDefs operands
  | _ => .ok false

/-- The hoisting state threaded through `LICM._hoist_loop`. -/
structure HoistSt where
  store : BlockStore
  d2b : List (VKey × String)
  invariantDefs : List VKey
  hoisted : List Inst
  changed : Bool
deriving Inhabited

/-- One block of the sweep inside `LICM._hoist_loop` (licm.py:130-144):
partition the instructions into hoisted and kept ones, updating the
invariant-def set and `def_to_block` as instructions are hoisted. -/
def hoistBlock (tree : DomTree) (uses : List (VKey × List VKey))
    (loopBlocks : List String) (exitBlock preheader lbl : String)
    (hs : HoistSt) : Except PyErr HoistSt := do
  let b := hs.store.getD lbl
  let res ← b.instructions.foldlM (fun (acc : HoistSt × List Inst) inst => do
    let (hs, newInsts) := acc
    let h ← isHoistable tree hs.d2b uses loopBlocks exitBlock hs.invariantDefs inst lbl
    if h then
      match inst with
      | .assign lhs _ =>
          match lhs.version with
          | none => .error (.assertionError "inst.lhs.version is not None")
          | some ver =>
              let defKey := (lhs.name, ver)
              let inv := if defKey ∈ hs.invariantDefs then hs.invariantDefs
                         else hs.invariantDefs ++ [defKey]
              .ok ({ hs with hoisted := hs.hoisted ++ [inst],
                             invariantDefs := inv,
                             d2b := kvSet hs.d2b defKey preheader,
                             changed := true }, newInsts)
      | _ => .error (.assertionError "isinstance(inst, InstAssign)")
    else .ok (hs, newInsts ++ [inst])) (hs, [])
  let (hs, newInsts) := res
  .ok { hs with store := hs.store.set lbl { (hs.store.getD lbl) with instructions := newInsts } }

/-- One full sweep over the dominator-tree traversal (one iteration of the
`while changed` loop of `_hoist_loop`), restricted to the loop blocks. -/
def hoistPass (tree : DomTree) (uses : List (VKey × List VKey))
    (loopBlocks : List String) (exitBlock preheader : String)
    (travList : List String) (hs : HoistSt) : Except PyErr HoistSt :=
  travList.foldlM (fun hs lbl =>
    if ¬ lbl ∈ loopBlocks then .ok hs
    else hoistBlock tree uses loopBlocks exitBlock preheader lbl hs) hs

/-- The `while changed` fixpoint of `_hoist_loop` (licm.py:123-144). -/
def hoistFix (tree : DomTree) (uses : List (VKey × List VKey))
    (loopBlocks : List String) (exitBlock preheader : String)
    (travList : List String) : Nat → HoistSt → Except PyErr HoistSt
  | 0, hs => .ok hs
  | fuel + 1, hs => do
      let hs ← hoistPass tree uses loopBlocks exitBlock preheader travList
        { hs with changed := false }
      if hs.changed then
        hoistFix tree uses loopBlocks exitBlock preheader travList fuel hs
      else .ok hs

/-- `LICM._hoist_loop` (licm.py:116-151): run the fixpoint, then splice the
hoisted instructions into the preheader just before its terminator
(`preheader.instructions.pop()` raises on an empty preheader). -/
def hoistLoop (tree : DomTree) (uses : List (VKey × List VKey))
    (acc : BlockStore × List (VKey × String)) (loop : LoopInfo) :
    Except PyErr (BlockStore × List (VKey × String)) := do
  let (store, d2b) := acc
  let invariantDefs := d2b.foldl
    (fun res p => if p.2 ∈ loop.blocks then res else res ++ [p.1]) []
  let travList := domTraverse tree.reversedIdom (storeFuel store) [loop.header] []
  let hs ← hoistFix tree uses loop.blocks loop.exitBlock loop.preheader travList
    (storeFuel store + 5)
    { store := store, d2b := d2b, invariantDefs := invariantDefs,
      hoisted := [], changed := false }
  if hs.hoisted.isEmpty then .ok (hs.store, hs.d2b)
  else
    let ph := hs.store.getD loop.preheader
    match ph.instructions.getLast? with
    | none => .error (.indexError "pop from empty list")
    | some jmp =>
        .ok (hs.store.set loop.preheader
          { ph with instructions := ph.instructions.dropLast ++ hs.hoisted ++ [jmp] },
          hs.d2b)

/-- Stable insertion into a list sorted by loop size (ascending): the new
element goes after every element of smaller or equal size. -/
def insertLoopBySize (x : LoopInfo) : List LoopInfo → List LoopInfo
  | [] => [x]
  | y :: ys =>
      if y.blocks.length ≤ x.blocks.length then y :: insertLoopBySize x ys
      else x :: y :: ys

/-- The stable ascending sort `sorted(loops, key=lambda x: len(x.blocks))`
of `LICM.run`. -/
def sortLoopsBySize (loops : List LoopInfo) : List LoopInfo :=
  loops.foldl (fun acc x => insertLoopBySize x acc) []

/-- `LICM.run` (licm.py:38-44): dominator tree (this prunes the CFG), def/use
index, loop discovery, then hoist loops from smallest to largest
(`sorted(..., key=len)` is stable, as is `sortLoopsBySize`). -/
def licmRun (cfg : CFG) : Except PyErr CFG := do
  let (tree, cfg1) ← computeDominatorTree cfg
  let (d2b, uses) := licmIndex cfg1
  let loops ← findLoops cfg1 tree
  let sorted := sortLoopsBySize loops
  let (store, _) ← sorted.foldlM (fun acc loop => hoistLoop tree uses acc loop)
    (cfg1.blocks, d2b)
  .ok { cfg1 with blocks := store }

/-- The marking state of `DCE` (dce.py:36-38) together with the variable
worklist of `_mark`. -/
structure MarkSt where
  liveInsts : List Site := []
  liveVars : List VKey := []
  work : List VKey := []
deriving DecidableEq, Repr, Inhabited

/-- Identity-set `add` for live instructions: append at the end iff absent
(single pass). -/
def addSite (l : List Site) (x : Site) : List Site :=
  match l with
  | [] => [x]
  | y :: ys => if y = x then y :: ys else y :: addSite ys x

/-- `DCE._iter_uses_from_vals` (dce.py:97-101): unlike SCCP, this asserts
that every variable has a version. -/
def dceVarKeys : List SSAValue → Except PyErr (List VKey)
  | [] => .ok []
  | v :: rest =>
      match v with
      | .var sv =>
          match sv.version with
          | none => .error (.assertionError "v.version is not None")
          | some ver => do
              let ks ← dceVarKeys rest
              .ok ((sv.name, ver) :: ks)
      | _ => dceVarKeys rest

/-- `DCE._iter_ssavars` (dce.py:83-95): the versioned variables of a
right-hand side (including the address of a Load). -/
def dceIterSSAVars (rhs : Rhs) : Except PyErr (List VKey) :=
  match rhs with
  | .op (.load addr) => dceVarKeys [.var addr]
  | .op (.binary _ l r) => dceVarKeys [l, r]
  | .op (.unary _ v) => dceVarKeys [v]
  | .op (.call _ args) => dceVarKeys args
  | .val v => dceVarKeys [v]

/-- `DCE._build_metadata` (dce.py:47-81). -/
def dceBuildMetadata (cfg : CFG) : Except PyErr SCCPMeta :=
  (cfgIterList cfg).foldlM (fun m lbl => do
    let b := cfg.blocks.getD lbl
    let m ← b.phiNodes.foldlM (fun (m : SCCPMeta) p =>
      match p.2.lhs.version with
      | none => .error (.assertionError "phi.lhs.version is not None")
      | some ver =>
          let m := { m with defs := kvSet m.defs (p.2.lhs.name, ver) (.phiSite lbl p.1) }
          .ok (p.2.rhs.foldl (fun m q =>
            addUses m (varKeysOf [q.2]) (.phiSite lbl p.1)) m)) m
    let res ← b.instructions.foldlM (fun (acc : SCCPMeta × Nat) inst => do
      let (m, i) := acc
      let m ←
        match inst with
        | .arrayInit lhs _ =>
            match lhs.version with
            | none => .error (.assertionError "unwrap on None")
            | some ver =>
                .ok { m with defs := kvSet m.defs (lhs.name, ver) (.instSite lbl i) }
        | .assign lhs rhs =>
            match lhs.version with
            | none => .error (.assertionError "unwrap on None")
            | some ver => do
                let m := { m with defs := kvSet m.defs (lhs.name, ver) (.instSite lbl i) }
                let ks ← dceIterSSAVars rhs
                .ok (addUses m ks (.instSite lbl i))
        | .getArgument lhs _ =>
            match lhs.version with
            | none => .error (.assertionError "unwrap on None")
            | some ver =>
                .ok { m with defs := kvSet m.defs (lhs.name, ver) (.instSite lbl i) }
        | .cmp l r _ _ => do
            let ks ← dceVarKeys [l, r]
            .ok (addUses m ks (.instSite lbl i))
        | .ret (some v) => do
            let ks ← dceVarKeys [v]
            .ok (addUses m ks (.instSite lbl i))
        | _ => .ok m
      .ok (m, i + 1)) (m, 0)
    .ok res.1) {}

/-- The backward scan of the seed block in `DCE._mark_pointer_chain`
(dce.py:110-122), over the reversed enumerated slice `instructions[:seed_idx]`.
Returns the state and whether the early `return` fired (an already-live store
through the same base was found). -/
def ptrChainLocal (lbl : String) (basePtr : Option (String × Nat)) :
    List (Nat × Inst) → MarkSt → Except PyErr (MarkSt × Bool)
  | [], st => .ok (st, false)
  | (i, inst) :: rest, st =>
      match inst with
      | .store dst _ =>
          if dst.basePointer = basePtr then
            match dst.version with
            | none => .error (.assertionError "unwrap on None")
            | some ver =>
                let key := (dst.name, ver)
                if key ∈ st.liveVars then .ok (st, true)
                else
                  let st := { st with liveVars := st.liveVars ++ [key],
                                      work := st.work ++ [key],
                                      liveInsts := addSite st.liveInsts (.instSite lbl i) }
                  ptrChainLocal lbl basePtr rest st
          else ptrChainLocal lbl basePtr rest st
      | _ => ptrChainLocal lbl basePtr rest st

/-- The per-predecessor-block scan of `DCE._mark_pointer_chain`
(dce.py:132-155): reversed full instruction list; an already-live store
through the base is a dead end. -/
def ptrChainBlockScan (lbl : String) (basePtr : Option (String × Nat)) :
    List (Nat × Inst) → MarkSt → Except PyErr (MarkSt × Bool)
  | [], st => .ok (st, false)
  | (i, inst) :: rest, st =>
      match inst with
      | .store dst val =>
          if dst.basePointer = basePtr then
            if (Site.instSite lbl i) ∈ st.liveInsts then .ok (st, true)
            else
              match dst.version with
              | none => .error (.assertionError "unwrap on None")
              | some ver =>
                  let key := (dst.name, ver)
                  let st := { st with liveInsts := addSite st.liveInsts (.instSite lbl i) }
                  let st := if key ∈ st.liveVars then st
                            else { st with liveVars := st.liveVars ++ [key],
                                           work := st.work ++ [key] }
                  match val with
                  | .var sv =>
                      match sv.version with
                      | none => .error (.assertionError "unwrap on None")
                      | some ver2 =>
                          let key2 := (sv.name, ver2)
                          let st := if key2 ∈ st.liveVars then st
                                    else { st with liveVars := st.liveVars ++ [key2],
                                                   work := st.work ++ [key2] }
                          ptrChainBlockScan lbl basePtr rest st
                  | _ => ptrChainBlockScan lbl basePtr rest st
          else ptrChainBlockScan lbl basePtr rest st
      | _ => ptrChainBlockScan lbl basePtr rest st

/-- The predecessor walk of `DCE._mark_pointer_chain` (dce.py:124-157);
`q.pop()` pops the last element, so the head of the stack here is the last
pushed. -/
def ptrChainWalk (store : BlockStore) (basePtr : Option (String × Nat)) :
    Nat → List String → List String → MarkSt → Except PyErr MarkSt
  | 0, _, _, st => .ok st
  | _ + 1, [], _, st => .ok st
  | fuel + 1, cur :: q, seen, st =>
      if cur ∈ seen then ptrChainWalk store basePtr fuel q seen st
      else do
        let seen := seen ++ [cur]
        let (st, deadEnd) ← ptrChainBlockScan cur basePtr
          ((store.getD cur).instructions.enum.reverse) st
        let q := if deadEnd then q
                 else (((store.getD cur).preds.filter (fun p => ¬ p ∈ seen)).reverse) ++ q
        ptrChainWalk store basePtr fuel q seen st

/-- `DCE._mark_pointer_chain` (dce.py:103-157). -/
def markPointerChain (store : BlockStore) (lbl : String) (ptrSeed : SSAVar)
    (seedIdx : Int) (st : MarkSt) : Except PyErr MarkSt := do
  let b := store.getD lbl
  let cutoff := if seedIdx < 0 then b.instructions.length - 1 else seedIdx.toNat
  let (st, stop) ← ptrChainLocal lbl ptrSeed.basePointer
    ((b.instructions.enum.take cutoff).reverse) st
  if stop then .ok st
  else
    ptrChainWalk store ptrSeed.basePointer (storeFuel store)
      ((b.preds.filter (fun p => ¬ p = lbl)).reverse) [] st

/-- `DCE.mark_value_live` (dce.py:159-177). -/
def markValueLive (store : BlockStore) (lbl : String) (instIdx : Int)
    (val : SSAValue) (st : MarkSt) : Except PyErr MarkSt :=
  match val with
  | .const _ => .ok st
  | .var sv =>
      match sv.version with
      | none => .error (.assertionError "unwrap on None")
      | some ver => do
          let key := (sv.name, ver)
          let st ← if sv.basePointer ≠ none then
              markPointerChain store lbl sv instIdx st
            else .ok st
          if key ∈ st.liveVars then .ok st
          else .ok { st with liveVars := st.liveVars ++ [key],
                             work := st.work ++ [key] }

/-- Is an Assign a division/modulo root of `_seed_roots` (dce.py:191)?  The
pattern `OpBinary("/" | "%", _, SSAVariable() | SSAConstant(0))` keeps every
division or modulo whose divisor is a variable or the constant 0. -/
def isDivModRoot (inst : Inst) : Bool :=
  match inst with
  | .assign _ (.op (.binary op _ r)) =>
      (op = "/" || op = "%") &&
        (match r with
         | .var _ => true
         | .const k => k = 0)
  | _ => false

/-- Seeding of one instruction in `DCE._seed_roots` (dce.py:179-211). -/
def seedInst (store : BlockStore) (cfgExit : String) (lbl : String) (i : Nat)
    (inst : Inst) (st : MarkSt) : Except PyErr MarkSt :=
  match inst with
  | .getArgument lhs _ =>
      if lhs.basePointer ≠ none then
        match lhs.version with
        | none => .error (.assertionError "unwrap on None")
        | some ver =>
            let k := (lhs.name, ver)
            let st := { st with
              liveVars := if k ∈ st.liveVars then st.liveVars else st.liveVars ++ [k],
              liveInsts := addSite st.liveInsts (.instSite lbl i) }
            markPointerChain store cfgExit lhs (-1) st
      else .ok st
  | .assign _ rhs =>
      (match rhs with
       | .op (.binary op l r) =>
           if (op = "/" || op = "%") &&
               (match r with
                | .var _ => true
                | .const k => k = 0) then do
             let st := { st with liveInsts := addSite st.liveInsts (.instSite lbl i) }
             let st ← markValueLive store lbl (Int.ofNat i) l st
             markValueLive store lbl (Int.ofNat i) r st
           else .ok st
       | .op (.call _ args) => do
           let st := { st with liveInsts := addSite st.liveInsts (.instSite lbl i) }
           args.foldlM (fun st a => markValueLive store lbl (Int.ofNat i) a st) st
       | _ => .ok st)
  | .ret v? => do
      let st := { st with liveInsts := addSite st.liveInsts (.instSite lbl i) }
      match v? with
      | some v => markValueLive store lbl (Int.ofNat i) v st
      | none => .ok st
  | .cmp l r _ _ => do
      let st := { st with liveInsts := addSite st.liveInsts (.instSite lbl i) }
      let st ← markValueLive store lbl (Int.ofNat i) l st
      markValueLive store lbl (Int.ofNat i) r st
  | _ => .ok st

/-- Seeding of one block: enumerate its instructions. -/
def seedBlock (store : BlockStore) (cfgExit lbl : String) (st : MarkSt) :
    Except PyErr MarkSt :=
  (store.getD lbl).instructions.enum.foldlM
    (fun st p => seedInst store cfgExit lbl p.1 p.2 st) st

/-- `DCE._seed_roots` over the reachable blocks. -/
def seedRoots (store : BlockStore) (cfgExit : String) (iterL : List String)
    (st : MarkSt) : Except PyErr MarkSt :=
  iterL.foldlM (fun st lbl => seedBlock store cfgExit lbl st) st

/-- The worklist loop of `DCE._mark` (dce.py:213-238).  Fuel exhaustion
returns the state reached so far (the Python loop always terminates because
a key enters the worklist only together with its first insertion into
`live_vars`). -/
def markLoop (store : BlockStore) (defs : List (VKey × Site)) :
    Nat → MarkSt → Except PyErr MarkSt
  | 0, st => .ok st
  | fuel + 1, st =>
      match st.work with
      | [] => .ok st
      | key :: rest =>
          let st := { st with work := rest }
          match kvGet? defs key with
          | none => .error (.keyError key.1)
          | some site =>
              if site ∈ st.liveInsts then markLoop store defs fuel st
              else
                let st := { st with liveInsts := addSite st.liveInsts site }
                match site with
                | .phiSite lbl name =>
                    (match assocGet? (store.getD lbl).phiNodes name with
                     | none => .error (.runtimeError "unexpected definition instruction type")
                     | some phi => do
                         let st ← phi.rhs.foldlM
                           (fun st q => markValueLive store lbl (-1) q.2 st) st
                         markLoop store defs fuel st)
                | .instSite lbl idx =>
                    match (store.getD lbl).instructions.get? idx with
                    | some (.getArgument _ _) => markLoop store defs fuel st
                    | some (.arrayInit _ _) => markLoop store defs fuel st
                    | some (.assign _ rhs) => do
                        let ks ← dceIterSSAVars rhs
                        let st ← ks.foldlM (fun st k =>
                          markValueLive store lbl (Int.ofNat idx)
                            (.var { name := k.1, version := some k.2 }) st) st
                        markLoop store defs fuel st
                    | _ => .error (.runtimeError "unexpected definition instruction type")

/-- ϕ removal phase of `DCE._sweep` (dce.py:243-249). -/
def sweepBlockPhis (live : List Site) (lbl : String) (b : BB) : BB :=
  { b with phiNodes := b.phiNodes.filter (fun p => (Site.phiSite lbl p.1) ∈ live) }

/-- Keep decision of the instruction sweep (dce.py:253-274): terminators are
kept unconditionally, `Assign`/`GetArgument`/`ArrayInit`/`Store` iff live.
Every `Inst` constructor is covered, so the `RuntimeError` arm of the source
(for unknown kinds such as a ϕ inside the instruction list, which never
occurs) has no counterpart. -/
def keepInst (live : List Site) (lbl : String) (i : Nat) (inst : Inst) : Bool :=
  match inst with
  | .uncondJump _ => true
  | .ret _ => true
  | .cmp _ _ _ _ => true
  | .assign _ _ => (Site.instSite lbl i) ∈ live
  | .getArgument _ _ => (Site.instSite lbl i) ∈ live
  | .arrayInit _ _ => (Site.instSite lbl i) ∈ live
  | .store _ _ => (Site.instSite lbl i) ∈ live

/-- Instruction sweep of one block. -/
def sweepBlockInsts (live : List Site) (lbl : String) (b : BB) : BB :=
  { b with instructions :=
      ((b.instructions.enum.filter (fun p => keepInst live lbl p.1 p.2)).map
        (fun p => p.2)) }

/-- A generous fuel bound for the mark loop: a key is appended to the
worklist only together with its first insertion into `live_vars`. -/
def dceMarkFuel (cfg : CFG) : Nat :=
  (cfg.blocks.foldl
    (fun a p => a + 4 * (p.2.instructions.length + p.2.phiNodes.length) + 4) 16)

/-- `DCE.run` (dce.py:40-45): metadata, mark (seed + worklist), sweep.  The
sweep is a per-block rewrite of the reachable blocks; blocks outside the
traversal are untouched, which the store-map formulation realises
directly. -/
def dceRun (cfg : CFG) : Except PyErr CFG := do
  let iterL := cfgIterList cfg
  let meta ← dceBuildMetadata cfg
  let st ← seedRoots cfg.blocks cfg.exit iterL {}
  let st ← markLoop cfg.blocks meta.defs (dceMarkFuel cfg) st
  let live := st.liveInsts
  let store := cfg.blocks.map (fun p =>
    if p.1 ∈ iterL then (p.1, sweepBlockPhis live p.1 p.2) else p)
  let store := store.map (fun p =>
    if p.1 ∈ iterL then (p.1, sweepBlockInsts live p.1 p.2) else p)
  .ok { cfg with blocks := store }

deriving instance DecidableEq for Except

/-- Convenience: a syntactic block with its symbol table attached (as the
semantic analyzer leaves it). -/
def mkBlockStx (sts : List Stmt) (st : SymTab) : BlockStx := .mk sts (some st)

/-- A one-function program. -/
def mkMainProg (body : BlockStx) : Program :=
  { functions := [⟨"main", [], "void", body, 1, 1⟩] }

/-- `func main() -> void { return; }` — expression-free, so the builder
succeeds. -/
def progRet : Program := mkMainProg (mkBlockStx [.ret none 1 1] [])

/-- `func main() -> void { let a [2]int = {}; }` — an `ArrayInit` assignment
is lowered without building any subexpression, so the builder succeeds. -/
def progArr : Program :=
  mkMainProg (mkBlockStx [.assignment "a" "[2]int" .arrayInit 1 1]
    [("a", ⟨"int", [2]⟩)])

/-- `func main() -> void { for { } return; }` — an unconditional loop with an
empty body; expression-free, so the builder succeeds. -/
def progLoop : Program :=
  mkMainProg (mkBlockStx [.unconditionalLoop (mkBlockStx [] []) 1 1,
    .ret none 2 1] [])

/-- `func main() -> void { if (0) { } else { return; } }`. -/
def progIfElse : Program :=
  mkMainProg (mkBlockStx
    [.condition (.integerLiteral 0) (mkBlockStx [] [])
      (some (mkBlockStx [.ret none 1 1] [])) 1 1] [])

/-- `func main() -> void { if (0) { } }`. -/
def progIf : Program :=
  mkMainProg (mkBlockStx [.condition (.integerLiteral 0) (mkBlockStx [] []) none 1 1] [])

/-- The CFG the builder produces for `progRet`: the literal value of
`((builderBuild progRet).toOption.getD []).headD default`. -/
def progRetCFG : CFG :=
  { name := "main", entry := "BB0", exit := "BB1", blocks := [("BB0", { label := "BB0", meta := some "entry", symtab := [], phiNodes := [], instructions := [Inst.ret none], preds := [], succ := ["BB1"] }), ("BB1", { label := "BB1", meta := some "exit", symtab := [], phiNodes := [], instructions := [], preds := ["BB0", "BB2"], succ := [] }), ("BB2", { label := "BB2", meta := some "after return", symtab := [], phiNodes := [], instructions := [], preds := [], succ := ["BB1"] })] }

/-- The CFG the builder produces for `progArr`: the literal value of
`((builderBuild progArr).toOption.getD []).headD default`. -/
def progArrCFG : CFG :=
  { name := "main", entry := "BB0", exit := "BB1", blocks := [("BB0", { label := "BB0", meta := some "entry", symtab := [("a", { baseType := "int", dimensions := [2] })], phiNodes := [], instructions := [Inst.arrayInit { name := "a", basePointer := none, version := none } [2]], preds := [], succ := ["BB1"] }), ("BB1", { label := "BB1", meta := some "exit", symtab := [("a", { baseType := "int", dimensions := [2] })], phiNodes := [], instructions := [], preds := ["BB0"], succ := [] })] }

/-- The CFG the builder produces for `progLoop`: the literal value of
`((builderBuild progLoop).toOption.getD []).headD default`. -/
def progLoopCFG : CFG :=
  { name := "main", entry := "BB0", exit := "BB1", blocks := [("BB0", { label := "BB0", meta := some "entry", symtab := [], phiNodes := [], instructions := [Inst.uncondJump "BB2"], preds := [], succ := ["BB2"] }), ("BB1", { label := "BB1", meta := some "exit", symtab := [], phiNodes := [], instructions := [], preds := ["BB6", "BB7"], succ := [] }), ("BB2", { label := "BB2", meta := some "uncond loop preheader", symtab := [], phiNodes := [], instructions := [Inst.uncondJump "BB3"], preds := ["BB0"], succ := ["BB3"] }), ("BB3", { label := "BB3", meta := some "uncond loop body", symtab := [], phiNodes := [], instructions := [Inst.uncondJump "BB4"], preds := ["BB2", "BB4"], succ := ["BB4"] }), ("BB4", { label := "BB4", meta := some "uncond loop update", symtab := [], phiNodes := [], instructions := [Inst.uncondJump "BB3"], preds := ["BB3"], succ := ["BB3"] }), ("BB5", { label := "BB5", meta := some "uncond loop tail", symtab := [], phiNodes := [], instructions := [Inst.uncondJump "BB6"], preds := [], succ := ["BB6"] }), ("BB6", { label := "BB6", meta := some "uncond loop exit", symtab := [], phiNodes := [], instructions := [Inst.ret none], preds := ["BB5"], succ := ["BB1"] }), ("BB7", { label := "BB7", meta := some "after return", symtab := [], phiNodes := [], instructions := [], preds := [], succ := ["BB1"] })] }

/-- Builder state just before the loop statement of `progLoop` is lowered:
entry and exit blocks exist and `cur_block` is the entry (literal value). -/
def bldLoopPre : Builder := { blockCounter := 2, curBlock := some "BB0", cfgName := "main", cfgEntry := "BB0", cfgExit := "BB1", store := [("BB0", { label := "BB0", meta := some "entry", symtab := [] }), ("BB1", { label := "BB1", meta := some "exit", symtab := [] })] }

/-- Builder state of `progLoop` after the `UnconditionalLoop` statement has
been lowered (literal value). -/
def bldLoopMid : Builder :=
  { blockCounter := 7, tmpVarCounter := 0, curBlock := some "BB6", breakTargets := [], continueTargets := [], cfgName := "main", cfgEntry := "BB0", cfgExit := "BB1", store := [("BB0", { label := "BB0", meta := some "entry", symtab := [], phiNodes := [], instructions := [Inst.uncondJump "BB2"], preds := [], succ := ["BB2"] }), ("BB1", { label := "BB1", meta := some "exit", symtab := [], phiNodes := [], instructions := [], preds := [], succ := [] }), ("BB2", { label := "BB2", meta := some "uncond loop preheader", symtab := [], phiNodes := [], instructions := [Inst.uncondJump "BB3"], preds := ["BB0"], succ := ["BB3"] }), ("BB3", { label := "BB3", meta := some "uncond loop body", symtab := [], phiNodes := [], instructions := [Inst.uncondJump "BB4"], preds := ["BB2", "BB4"], succ := ["BB4"] }), ("BB4", { label := "BB4", meta := some "uncond loop update", symtab := [], phiNodes := [], instructions := [Inst.uncondJump "BB3"], preds := ["BB3"], succ := ["BB3"] }), ("BB5", { label := "BB5", meta := some "uncond loop tail", symtab := [], phiNodes := [], instructions := [Inst.uncondJump "BB6"], preds := [], succ := ["BB6"] }), ("BB6", { label := "BB6", meta := some "uncond loop exit", symtab := [], phiNodes := [], instructions := [], preds := ["BB5"], succ := [] })] }

/-- Builder state of `progLoop` after the trailing `return` statement has
been lowered (literal value). -/
def bldLoopRet : Builder :=
  { blockCounter := 8, tmpVarCounter := 0, curBlock := some "BB7", breakTargets := [], continueTargets := [], cfgName := "main", cfgEntry := "BB0", cfgExit := "BB1", store := [("BB0", { label := "BB0", meta := some "entry", symtab := [], phiNodes := [], instructions := [Inst.uncondJump "BB2"], preds := [], succ := ["BB2"] }), ("BB1", { label := "BB1", meta := some "exit", symtab := [], phiNodes := [], instructions := [], preds := ["BB6"], succ := [] }), ("BB2", { label := "BB2", meta := some "uncond loop preheader", symtab := [], phiNodes := [], instructions := [Inst.uncondJump "BB3"], preds := ["BB0"], succ := ["BB3"] }), ("BB3", { label := "BB3", meta := some "uncond loop body", symtab := [], phiNodes := [], instructions := [Inst.uncondJump "BB4"], preds := ["BB2", "BB4"], succ := ["BB4"] }), ("BB4", { label := "BB4", meta := some "uncond loop update", symtab := [], phiNodes := [], instructions := [Inst.uncondJump "BB3"], preds := ["BB3"], succ := ["BB3"] }), ("BB5", { label := "BB5", meta := some "uncond loop tail", symtab := [], phiNodes := [], instructions := [Inst.uncondJump "BB6"], preds := [], succ := ["BB6"] }), ("BB6", { label := "BB6", meta := some "uncond loop exit", symtab := [], phiNodes := [], instructions := [Inst.ret none], preds := ["BB5"], succ := ["BB1"] }), ("BB7", { label := "BB7", meta := some "after return", symtab := [], phiNodes := [], instructions := [], preds := [], succ := [] })] }

/-- Final builder state of `progLoop` after `_build_function` links the
fall-through block `BB7` to the exit (literal value). -/
def bldLoopFin : Builder :=
  { blockCounter := 8, tmpVarCounter := 0, curBlock := some "BB7", breakTargets := [], continueTargets := [], cfgName := "main", cfgEntry := "BB0", cfgExit := "BB1", store := [("BB0", { label := "BB0", meta := some "entry", symtab := [], phiNodes := [], instructions := [Inst.uncondJump "BB2"], preds := [], succ := ["BB2"] }), ("BB1", { label := "BB1", meta := some "exit", symtab := [], phiNodes := [], instructions := [], preds := ["BB6", "BB7"], succ := [] }), ("BB2", { label := "BB2", meta := some "uncond loop preheader", symtab := [], phiNodes := [], instructions := [Inst.uncondJump "BB3"], preds := ["BB0"], succ := ["BB3"] }), ("BB3", { label := "BB3", meta := some "uncond loop body", symtab := [], phiNodes := [], instructions := [Inst.uncondJump "BB4"], preds := ["BB2", "BB4"], succ := ["BB4"] }), ("BB4", { label := "BB4", meta := some "uncond loop update", symtab := [], phiNodes := [], instructions := [Inst.uncondJump "BB3"], preds := ["BB3"], succ := ["BB3"] }), ("BB5", { label := "BB5", meta := some "uncond loop tail", symtab := [], phiNodes := [], instructions := [Inst.uncondJump "BB6"], preds := [], succ := ["BB6"] }), ("BB6", { label := "BB6", meta := some "uncond loop exit", symtab := [], phiNodes := [], instructions := [Inst.ret none], preds := ["BB5"], succ := ["BB1"] }), ("BB7", { label := "BB7", meta := some "after return", symtab := [], phiNodes := [], instructions := [], preds := [], succ := ["BB1"] })] }

/-- `func main() -> void { for { break; return; } }` — expression-free, so
the builder succeeds; the `return` is lowered into the loop-body block that
the `break` already terminated. -/
def progBrkRet : Program :=
  mkMainProg (mkBlockStx
    [.unconditionalLoop (mkBlockStx [.brk 1 1, .ret none 1 1] []) 1 1] [])

/-- Builder state of `progBrkRet` after its loop statement has been lowered
(literal value). -/
def bldBrkMid : Builder :=
  { blockCounter := 8, tmpVarCounter := 0, curBlock := some "BB6", breakTargets := [], continueTargets := [], cfgName := "main", cfgEntry := "BB0", cfgExit := "BB1", store := [("BB0", { label := "BB0", meta := some "entry", symtab := [], phiNodes := [], instructions := [Inst.uncondJump "BB2"], preds := [], succ := ["BB2"] }), ("BB1", { label := "BB1", meta := some "exit", symtab := [], phiNodes := [], instructions := [], preds := ["BB3"], succ := [] }), ("BB2", { label := "BB2", meta := some "uncond loop preheader", symtab := [], phiNodes := [], instructions := [Inst.uncondJump "BB3"], preds := ["BB0"], succ := ["BB3"] }), ("BB3", { label := "BB3", meta := some "uncond loop body", symtab := [], phiNodes := [], instructions := [Inst.uncondJump "BB5", Inst.ret none], preds := ["BB2", "BB4"], succ := ["BB5", "BB1"] }), ("BB4", { label := "BB4", meta := some "uncond loop update", symtab := [], phiNodes := [], instructions := [Inst.uncondJump "BB3"], preds := ["BB7"], succ := ["BB3"] }), ("BB5", { label := "BB5", meta := some "uncond loop tail", symtab := [], phiNodes := [], instructions := [Inst.uncondJump "BB6"], preds := ["BB3"], succ := ["BB6"] }), ("BB6", { label := "BB6", meta := some "uncond loop exit", symtab := [], phiNodes := [], instructions := [], preds := ["BB5"], succ := [] }), ("BB7", { label := "BB7", meta := some "after return", symtab := [], phiNodes := [], instructions := [Inst.uncondJump "BB4"], preds := [], succ := ["BB4"] })] }

/-- Final builder state of `progBrkRet` (literal value). -/
def bldBrkFin : Builder :=
  { blockCounter := 8, tmpVarCounter := 0, curBlock := some "BB6", breakTargets := [], continueTargets := [], cfgName := "main", cfgEntry := "BB0", cfgExit := "BB1", store := [("BB0", { label := "BB0", meta := some "entry", symtab := [], phiNodes := [], instructions := [Inst.uncondJump "BB2"], preds := [], succ := ["BB2"] }), ("BB1", { label := "BB1", meta := some "exit", symtab := [], phiNodes := [], instructions := [], preds := ["BB3", "BB6"], succ := [] }), ("BB2", { label := "BB2", meta := some "uncond loop preheader", symtab := [], phiNodes := [], instructions := [Inst.uncondJump "BB3"], preds := ["BB0"], succ := ["BB3"] }), ("BB3", { label := "BB3", meta := some "uncond loop body", symtab := [], phiNodes := [], instructions := [Inst.uncondJump "BB5", Inst.ret none], preds := ["BB2", "BB4"], succ := ["BB5", "BB1"] }), ("BB4", { label := "BB4", meta := some "uncond loop update", symtab := [], phiNodes := [], instructions := [Inst.uncondJump "BB3"], preds := ["BB7"], succ := ["BB3"] }), ("BB5", { label := "BB5", meta := some "uncond loop tail", symtab := [], phiNodes := [], instructions := [Inst.uncondJump "BB6"], preds := ["BB3"], succ := ["BB6"] }), ("BB6", { label := "BB6", meta := some "uncond loop exit", symtab := [], phiNodes := [], instructions := [], preds := ["BB5"], succ := ["BB1"] }), ("BB7", { label := "BB7", meta := some "after return", symtab := [], phiNodes := [], instructions := [Inst.uncondJump "BB4"], preds := [], succ := ["BB4"] })] }

/-- The CFG the builder produces for `progBrkRet`. -/
def progBrkRetCFG : CFG :=
  { name := "main", entry := "BB0", exit := "BB1", blocks := bldBrkFin.store }

/-- The terminator invariant claimed for builder output (spec §3): every
reachable block with two or more successors ends with a Cmp; every block with
exactly one successor ends with an UncondJump, or with a Return in which case
its only successor is the exit block. -/
def terminatorInvariant (cfg : CFG) : Bool :=
  (cfgIterList cfg).all (fun lbl =>
    let b := cfg.blocks.getD lbl
    (if b.succ.length ≥ 2 then
       (match b.instructions.getLast? with
        | some (.cmp _ _ _ _) => true
        | _ => false)
     else true)
    &&
    (if b.succ.length = 1 then
       (match b.instructions.getLast? with
        | some (.uncondJump _) => true
        | some (.ret _) => b.succ = [cfg.exit]
        | _ => false)
     else true))

/-- Entry block of SCCP idempotence input `sccpCfg`: `a_v1 = getarg(0)` and
`cmp(a_v1, 0)` branching to `BB2` (then) / `BB3` (else); successor order
`[BB2, BB3]` makes the depth-first fold visit `BB3` before `BB2`. -/
def sccpBB0 : BB :=
  { label := "BB0",
    instructions := [.getArgument { name := "a", version := some 1 } 0,
                     .cmp (.var { name := "a", version := some 1 }) (.const 0)
                       "BB2" "BB3"],
    preds := [], succ := ["BB2", "BB3"] }

/-- Exit block of `sccpCfg`. -/
def sccpBB1 : BB := { label := "BB1", preds := ["BB3", "BB4"], succ := [] }

/-- `BB2` of `sccpCfg`: `cmp(0, 0)` with then-target `BB4` and else-target
`BB3`; the constants are equal, so SCCP folds this into `jmp BB4` and
detaches the edge to `BB3`. -/
def sccpBB2 : BB :=
  { label := "BB2",
    instructions := [.cmp (.const 0) (.const 0) "BB4" "BB3"],
    preds := ["BB0"], succ := ["BB4", "BB3"] }

/-- `BB3` of `sccpCfg`: the join block with
`y_v3 = ϕ(BB0: 1, BB2: 2)` and `return(y_v3)`. -/
def sccpBB3 : BB :=
  { label := "BB3",
    phiNodes := [("y", { lhs := { name := "y", version := some 3 },
                         rhs := [("BB0", .const 1), ("BB2", .const 2)] })],
    instructions := [.ret (some (.var { name := "y", version := some 3 }))],
    preds := ["BB0", "BB2"], succ := ["BB1"] }

/-- `BB4` of `sccpCfg`: `return(0)`. -/
def sccpBB4 : BB :=
  { label := "BB4", instructions := [.ret (some (.const 0))],
    preds := ["BB2"], succ := ["BB1"] }

/-- An SSA-form CFG (unique defining instruction per version, ϕ incoming maps
matching the predecessor lists, consistent pred/succ lists, entry without
predecessors, exit without successors, Cmp terminators on the two-successor
blocks).  SCCP is not idempotent on it: the first run folds the constant
`cmp(0, 0)` of `BB2` into a jump and removes `BB2` from `BB3.preds`, but
`BB3` was folded earlier in the traversal, so its ϕ keeps the stale `BB2`
entry; the second run drops that entry. -/
def sccpCfg : CFG :=
  { name := "f", entry := "BB0", exit := "BB1",
    blocks := [("BB0", sccpBB0), ("BB1", sccpBB1), ("BB2", sccpBB2),
               ("BB3", sccpBB3), ("BB4", sccpBB4)] }

/-- The CFG after the first SCCP run on `sccpCfg`: the literal value of
`(sccpRun sccpCfg).toOption.getD default`. -/
def sccpOnceCFG : CFG :=
  { name := "f", entry := "BB0", exit := "BB1", blocks := [("BB0", { label := "BB0", meta := none, symtab := [], phiNodes := [], instructions := [Inst.getArgument { name := "a", basePointer := none, version := some 1 } 0, Inst.cmp (SSAValue.var { name := "a", basePointer := none, version := some 1 }) (SSAValue.const 0) "BB2" "BB3"], preds := [], succ := ["BB2", "BB3"] }), ("BB1", { label := "BB1", meta := none, symtab := [], phiNodes := [], instructions := [], preds := [], succ := [] }), ("BB2", { label := "BB2", meta := none, symtab := [], phiNodes := [], instructions := [Inst.uncondJump "BB4"], preds := ["BB0"], succ := ["BB4"] }), ("BB3", { label := "BB3", meta := none, symtab := [], phiNodes := [("y", { lhs := { name := "y", basePointer := none, version := some 3 }, rhs := [("BB0", SSAValue.const 1), ("BB2", SSAValue.const 2)] })], instructions := [Inst.ret (some (SSAValue.const 1))], preds := ["BB0"], succ := [] }), ("BB4", { label := "BB4", meta := none, symtab := [], phiNodes := [], instructions := [Inst.ret (some (SSAValue.const 0))], preds := ["BB2"], succ := [] })] }

/-- Replace the incoming map of ϕ `name` in block `lbl`. -/
def withPhiRhs (cfg : CFG) (lbl name : String) (rhs : List (String × SSAValue)) :
    CFG :=
  { cfg with blocks := (cfg.blocks.modify lbl (fun b =>
      { b with phiNodes := b.phiNodes.map (fun p =>
          if p.1 = name then (p.1, { p.2 with rhs := rhs }) else p) })) }

/-- `a_v1`, an array base pointer defined in the entry block of `licmCfg`. -/
def licmVarA : SSAVar := { name := "a", basePointer := some ("a", 1), version := some 1 }

/-- Entry block of `licmCfg`. -/
def licmBB0 : BB :=
  { label := "BB0",
    instructions := [.getArgument licmVarA 0, .uncondJump "BB2"],
    preds := [], succ := ["BB2"] }

/-- Function exit block of `licmCfg`. -/
def licmBB1 : BB := { label := "BB1", preds := ["BB6"], succ := [] }

/-- Condition-check block of `licmCfg`: `i_v1 = 0; t1_v1 = i_v1 < 10;
cmp(t1_v1, 0)` to loop exit `BB6` (then) / preheader `BB3` (else). -/
def licmBB2 : BB :=
  { label := "BB2",
    instructions := [.assign { name := "i", version := some 1 } (.val (.const 0)),
                     .assign { name := "t1", version := some 1 }
                       (.op (.binary "<" (.var { name := "i", version := some 1 })
                         (.const 10))),
                     .cmp (.var { name := "t1", version := some 1 }) (.const 0)
                       "BB6" "BB3"],
    preds := ["BB0"], succ := ["BB3", "BB6"] }

/-- Loop preheader of `licmCfg`. -/
def licmBB3 : BB :=
  { label := "BB3", instructions := [.uncondJump "BB4"],
    preds := ["BB2"], succ := ["BB4"] }

/-- The Assign whose right-hand side is a Load: `x_v1 = Load(a_v1)`. -/
def licmLoadInst : Inst :=
  .assign { name := "x", version := some 1 } (.op (.load licmVarA))

/-- Loop body of `licmCfg`: `i_v2 = ϕ(BB3: i_v1, BB5: i_v3)`, then the Load
assignment, then the jump to the latch. -/
def licmBB4 : BB :=
  { label := "BB4",
    phiNodes := [("i", { lhs := { name := "i", version := some 2 },
                         rhs := [("BB3", .var { name := "i", version := some 1 }),
                                 ("BB5", .var { name := "i", version := some 3 })] })],
    instructions := [licmLoadInst, .uncondJump "BB5"],
    preds := ["BB3", "BB5"], succ := ["BB5"] }

/-- Loop latch (update block) of `licmCfg`: `i_v3 = i_v2 + 1;
t2_v1 = i_v3 < 10; cmp(t2_v1, 0)` to tail `BB7` (then) / body `BB4`
(else). -/
def licmBB5 : BB :=
  { label := "BB5",
    instructions := [.assign { name := "i", version := some 3 }
                       (.op (.binary "+" (.var { name := "i", version := some 2 })
                         (.const 1))),
                     .assign { name := "t2", version := some 1 }
                       (.op (.binary "<" (.var { name := "i", version := some 3 })
                         (.const 10))),
                     .cmp (.var { name := "t2", version := some 1 }) (.const 0)
                       "BB7" "BB4"],
    preds := ["BB4"], succ := ["BB4", "BB7"] }

/-- Loop exit of `licmCfg`: `return(0)`. -/
def licmBB6 : BB :=
  { label := "BB6", instructions := [.ret (some (.const 0))],
    preds := ["BB2", "BB7"], succ := ["BB1"] }

/-- Loop tail of `licmCfg`. -/
def licmBB7 : BB :=
  { label := "BB7", instructions := [.uncondJump "BB6"],
    preds := ["BB5"], succ := ["BB6"] }

/-- An SSA-form CFG in the canonical counted-loop shape the CFG builder
documents (preheader `BB3`, body `BB4`, latch `BB5` with two successors,
tail `BB7`, exit `BB6`), whose loop body contains the Load assignment
`x_v1 = Load(a_v1)` with the address defined outside the loop. -/
def licmCfg : CFG :=
  { name := "g", entry := "BB0", exit := "BB1",
    blocks := [("BB0", licmBB0), ("BB1", licmBB1), ("BB2", licmBB2),
               ("BB3", licmBB3), ("BB4", licmBB4), ("BB5", licmBB5),
               ("BB6", licmBB6), ("BB7", licmBB7)] }

/-- `licmCfg` after LICM: the literal value of
`(licmRun licmCfg).toOption.getD default`. -/
def licmCfgAfter : CFG :=
  { name := "g", entry := "BB0", exit := "BB1", blocks := [("BB0", { label := "BB0", meta := none, symtab := [], phiNodes := [], instructions := [Inst.getArgument { name := "a", basePointer := some ("a", 1), version := some 1 } 0, Inst.uncondJump "BB2"], preds := [], succ := ["BB2"] }), ("BB1", { label := "BB1", meta := none, symtab := [], phiNodes := [], instructions := [], preds := ["BB6"], succ := [] }), ("BB2", { label := "BB2", meta := none, symtab := [], phiNodes := [], instructions := [Inst.assign { name := "i", basePointer := none, version := some 1 } (Rhs.val (SSAValue.const 0)), Inst.assign { name := "t1", basePointer := none, version := some 1 } (Rhs.op (Operation.binary "<" (SSAValue.var { name := "i", basePointer := none, version := some 1 }) (SSAValue.const 10))), Inst.cmp (SSAValue.var { name := "t1", basePointer := none, version := some 1 }) (SSAValue.const 0) "BB6" "BB3"], preds := ["BB0"], succ := ["BB3", "BB6"] }), ("BB3", { label := "BB3", meta := none, symtab := [], phiNodes := [], instructions := [Inst.assign { name := "x", basePointer := none, version := some 1 } (Rhs.op (Operation.load { name := "a", basePointer := some ("a", 1), version := some 1 })), Inst.uncondJump "BB4"], preds := ["BB2"], succ := ["BB4"] }), ("BB4", { label := "BB4", meta := none, symtab := [], phiNodes := [("i", { lhs := { name := "i", basePointer := none, version := some 2 }, rhs := [("BB3", SSAValue.var { name := "i", basePointer := none, version := some 1 }), ("BB5", SSAValue.var { name := "i", basePointer := none, version := some 3 })] })], instructions := [Inst.uncondJump "BB5"], preds := ["BB3", "BB5"], succ := ["BB5"] }), ("BB5", { label := "BB5", meta := none, symtab := [], phiNodes := [], instructions := [Inst.assign { name := "i", basePointer := none, version := some 3 } (Rhs.op (Operation.binary "+" (SSAValue.var { name := "i", basePointer := none, version := some 2 }) (SSAValue.const 1))), Inst.assign { name := "t2", basePointer := none, version := some 1 } (Rhs.op (Operation.binary "<" (SSAValue.var { name := "i", basePointer := none, version := some 3 }) (SSAValue.const 10))), Inst.cmp (SSAValue.var { name := "t2", basePointer := none, version := some 1 }) (SSAValue.const 0) "BB7" "BB4"], preds := ["BB4"], succ := ["BB4", "BB7"] }), ("BB6", { label := "BB6", meta := none, symtab := [], phiNodes := [], instructions := [Inst.ret (some (SSAValue.const 0))], preds := ["BB2", "BB7"], succ := ["BB1"] }), ("BB7", { label := "BB7", meta := none, symtab := [], phiNodes := [], instructions := [Inst.uncondJump "BB6"], preds := ["BB5"], succ := ["BB6"] })] }

/-- The division root of the DCE witness CFG: `x_v1 = a_v1 / b_v1` with a
variable divisor; `x` has no uses. -/
def dceDivInst : Inst :=
  .assign { name := "x", version := some 1 }
    (.op (.binary "/" (.var { name := "a", version := some 1 })
      (.var { name := "b", version := some 1 })))

/-- Entry block of the DCE witness CFG: two scalar arguments, the unused
division, an unused constant assignment, and `return(0)`. -/
def dceBB0 : BB :=
  { label := "BB0",
    instructions := [.getArgument { name := "a", version := some 1 } 0,
                     .getArgument { name := "b", version := some 1 } 1,
                     dceDivInst,
                     .assign { name := "z", version := some 1 } (.val (.const 7)),
                     .ret (some (.const 0))],
    preds := [], succ := ["BB1"] }

/-- A small SSA-form CFG on which `DCE.run` succeeds and which contains the
unused division root `dceDivInst` (and an unused, removable `z_v1 = 7`). -/
def dceCfg : CFG :=
  { name := "h", entry := "BB0", exit := "BB1",
    blocks := [("BB0", dceBB0), ("BB1", { label := "BB1", preds := ["BB0"] })] }

/-- `dceCfg` after DCE: the literal value of
`(dceRun dceCfg).toOption.getD default`. -/
def dceCfgAfter : CFG :=
  { name := "h", entry := "BB0", exit := "BB1", blocks := [("BB0", { label := "BB0", meta := none, symtab := [], phiNodes := [], instructions := [Inst.getArgument { name := "a", basePointer := none, version := some 1 } 0, Inst.getArgument { name := "b", basePointer := none, version := some 1 } 1, Inst.assign { name := "x", basePointer := none, version := some 1 } (Rhs.op (Operation.binary "/" (SSAValue.var { name := "a", basePointer := none, version := some 1 }) (SSAValue.var { name := "b", basePointer := none, version := some 1 }))), Inst.ret (some (SSAValue.const 0))], preds := [], succ := ["BB1"] }), ("BB1", { label := "BB1", meta := none, symtab := [], phiNodes := [], instructions := [], preds := ["BB0"], succ := [] })] }

/-- A fresh SCCP propagation state. -/
def sccpInit : SCCPSt := {}

/-- The state produced by `evaluateBranch` on two equal constants from a
fresh state: exactly the edge to the then-block is marked. -/
def sccpStW : SCCPSt :=
  { executableBlocks := ["T"], feasibleEdges := [("B", "T")],
    blockWorklist := ["T"] }

/-- The dominator tree `compute_dominator_tree` yields for `progLoopCFG`
(literal value; the reachable blocks are BB0, BB2, BB3, BB4). -/
def treeLoop : DomTree :=
  { entry := "BB0", idom := [("BB0", none), ("BB2", some "BB0"), ("BB3", some "BB2"), ("BB4", some "BB3")], reversedIdom := [("BB0", ["BB2"]), ("BB2", ["BB3"]), ("BB3", ["BB4"])], dominators := [("BB0", ["BB0"]), ("BB2", ["BB0", "BB2"]), ("BB3", ["BB0", "BB2", "BB3"]), ("BB4", ["BB0", "BB2", "BB3", "BB4"])] }

/-- `progLoopCFG` after the predecessor pruning done by
`compute_dominator_tree` (literal value). -/
def cfgLoop1 : CFG :=
  { name := "main", entry := "BB0", exit := "BB1", blocks := [("BB0", { label := "BB0", meta := some "entry", symtab := [], phiNodes := [], instructions := [Inst.uncondJump "BB2"], preds := [], succ := ["BB2"] }), ("BB1", { label := "BB1", meta := some "exit", symtab := [], phiNodes := [], instructions := [], preds := [], succ := [] }), ("BB2", { label := "BB2", meta := some "uncond loop preheader", symtab := [], phiNodes := [], instructions := [Inst.uncondJump "BB3"], preds := ["BB0"], succ := ["BB3"] }), ("BB3", { label := "BB3", meta := some "uncond loop body", symtab := [], phiNodes := [], instructions := [Inst.uncondJump "BB4"], preds := ["BB2", "BB4"], succ := ["BB4"] }), ("BB4", { label := "BB4", meta := some "uncond loop update", symtab := [], phiNodes := [], instructions := [Inst.uncondJump "BB3"], preds := ["BB3"], succ := ["BB3"] }), ("BB5", { label := "BB5", meta := some "uncond loop tail", symtab := [], phiNodes := [], instructions := [Inst.uncondJump "BB6"], preds := [], succ := ["BB6"] }), ("BB6", { label := "BB6", meta := some "uncond loop exit", symtab := [], phiNodes := [], instructions := [Inst.ret none], preds := ["BB5"], succ := ["BB1"] }), ("BB7", { label := "BB7", meta := some "after return", symtab := [], phiNodes := [], instructions := [], preds := [], succ := ["BB1"] })] }

/-- The dominator tree `compute_dominator_tree` yields for `licmCfg`
(literal value). -/
def treeLicm : DomTree :=
  { entry := "BB0", idom := [("BB0", none), ("BB2", some "BB0"), ("BB6", some "BB2"), ("BB1", some "BB6"), ("BB3", some "BB2"), ("BB4", some "BB3"), ("BB5", some "BB4"), ("BB7", some "BB5")], reversedIdom := [("BB0", ["BB2"]), ("BB2", ["BB6", "BB3"]), ("BB6", ["BB1"]), ("BB3", ["BB4"]), ("BB4", ["BB5"]), ("BB5", ["BB7"])], dominators := [("BB0", ["BB0"]), ("BB2", ["BB0", "BB2"]), ("BB6", ["BB0", "BB2", "BB6"]), ("BB1", ["BB0", "BB2", "BB6", "BB1"]), ("BB3", ["BB0", "BB2", "BB3"]), ("BB4", ["BB0", "BB2", "BB3", "BB4"]), ("BB5", ["BB0", "BB2", "BB3", "BB4", "BB5"]), ("BB7", ["BB0", "BB2", "BB3", "BB4", "BB5", "BB7"])] }

/-- `licmCfg` after the predecessor pruning done by
`compute_dominator_tree`; every block is reachable, so the pruning changes
nothing (literal value). -/
def cfgLicm1 : CFG :=
  { name := "g", entry := "BB0", exit := "BB1", blocks := [("BB0", { label := "BB0", meta := none, symtab := [], phiNodes := [], instructions := [Inst.getArgument { name := "a", basePointer := some ("a", 1), version := some 1 } 0, Inst.uncondJump "BB2"], preds := [], succ := ["BB2"] }), ("BB1", { label := "BB1", meta := none, symtab := [], phiNodes := [], instructions := [], preds := ["BB6"], succ := [] }), ("BB2", { label := "BB2", meta := none, symtab := [], phiNodes := [], instructions := [Inst.assign { name := "i", basePointer := none, version := some 1 } (Rhs.val (SSAValue.const 0)), Inst.assign { name := "t1", basePointer := none, version := some 1 } (Rhs.op (Operation.binary "<" (SSAValue.var { name := "i", basePointer := none, version := some 1 }) (SSAValue.const 10))), Inst.cmp (SSAValue.var { name := "t1", basePointer := none, version := some 1 }) (SSAValue.const 0) "BB6" "BB3"], preds := ["BB0"], succ := ["BB3", "BB6"] }), ("BB3", { label := "BB3", meta := none, symtab := [], phiNodes := [], instructions := [Inst.uncondJump "BB4"], preds := ["BB2"], succ := ["BB4"] }), ("BB4", { label := "BB4", meta := none, symtab := [], phiNodes := [("i", { lhs := { name := "i", basePointer := none, version := some 2 }, rhs := [("BB3", SSAValue.var { name := "i", basePointer := none, version := some 1 }), ("BB5", SSAValue.var { name := "i", basePointer := none, version := some 3 })] })], instructions := [Inst.assign { name := "x", basePointer := none, version := some 1 } (Rhs.op (Operation.load { name := "a", basePointer := some ("a", 1), version := some 1 })), Inst.uncondJump "BB5"], preds := ["BB3", "BB5"], succ := ["BB5"] }), ("BB5", { label := "BB5", meta := none, symtab := [], phiNodes := [], instructions := [Inst.assign { name := "i", basePointer := none, version := some 3 } (Rhs.op (Operation.binary "+" (SSAValue.var { name := "i", basePointer := none, version := some 2 }) (SSAValue.const 1))), Inst.assign { name := "t2", basePointer := none, version := some 1 } (Rhs.op (Operation.binary "<" (SSAValue.var { name := "i", basePointer := none, version := some 3 }) (SSAValue.const 10))), Inst.cmp (SSAValue.var { name := "t2", basePointer := none, version := some 1 }) (SSAValue.const 0) "BB7" "BB4"], preds := ["BB4"], succ := ["BB4", "BB7"] }), ("BB6", { label := "BB6", meta := none, symtab := [], phiNodes := [], instructions := [Inst.ret (some (SSAValue.const 0))], preds := ["BB2", "BB7"], succ := ["BB1"] }), ("BB7", { label := "BB7", meta := none, symtab := [], phiNodes := [], instructions := [Inst.uncondJump "BB6"], preds := ["BB5"], succ := ["BB6"] })] }

/-- Bind of a successful `Except` computation. -/
theorem exceptOkBind {α β : Type} (a : α) (f : α → Except PyErr β) :
    (Except.ok a >>= f) = f a := rfl

/-- Running a bind in the builder monad steps through the first action when
its run on the given state is known. -/
theorem bmStep {α β : Type} (x : BM α) (f : α → BM β) (s s1 : Builder) (a : α)
    (h : x.run s = Except.ok (a, s1)) :
    (x >>= f).run s = (f a).run s1 := by
  have e : (x >>= f).run s = Except.bind (x.run s) (fun p => (f p.1).run p.2) := rfl
  rw [e, h]
  rfl

/-- C1.  The claim says `SSABuilder.build` completes on every freshly built
CFG and that the step materializing function parameters succeeds for every
CFG, including one for a function with zero parameters.  In the code,
`_insert_get_argument_instructions` reads `self.cfg.args`, but the `CFG`
dataclass has only `name`/`entry`/`exit` and nothing ever assigns `args`, so
the step raises `AttributeError` for every CFG — zero parameters included —
and `build` never completes.  The theorem shows the error for every CFG and
evaluates the pipeline on the CFG built from
`func main() -> void { return; }`. -/
theorem c1_ssa_builder_insert_getargs_fails :
    (∀ cfg : CFG, insertGetArgumentInstructions cfg =
      .error (.attributeError "CFG object has no attribute args")) ∧
    builderBuild progRet = .ok [progRetCFG] ∧
    ssaBuild progRetCFG = .error (.attributeError "CFG object has no attribute args") :=
  ⟨fun _ => rfl, by decide, by decide⟩

set_option maxHeartbeats 4000000 in
/-- C3.  The claim says `LICM.run` completes on every CFG the builder
produces, including the back edge of an `UnconditionalLoop`, whose source
(latch) has exactly one successor.  `LICM._find_loops` asserts
`len(bb.succ) == 2` for every back-edge source, so on the CFG built from
`func main() -> void { for { } return; }` (latch `BB4` with single successor
`BB3`) the pass raises `AssertionError` instead of completing. -/
theorem c3_licm_crashes_on_unconditional_loop :
    builderBuild progLoop = .ok [progLoopCFG] ∧
    (progLoopCFG.blocks.getD "BB4").succ = ["BB3"] ∧
    licmRun progLoopCFG = .error (.assertionError "len(bb.succ) == 2") := by
  refine ⟨?_, by decide, ?_⟩
  · have hL : (buildStatement 98 (Stmt.unconditionalLoop (mkBlockStx [] []) 1 1)).run bldLoopPre = .ok ((), bldLoopMid) := by decide
    have hR : (buildStatement 97 (Stmt.ret none 2 1)).run bldLoopMid = .ok ((), bldLoopRet) := by decide
    have hBB : (buildBlockB 100 (mkBlockStx [.unconditionalLoop (mkBlockStx [] []) 1 1, .ret none 2 1] [])).run bldLoopPre = .ok ((), bldLoopRet) := by
      refine Eq.trans (bmStep _ _ _ _ _ (by decide : (requireCur).run bldLoopPre = .ok ("BB0", bldLoopPre))) ?_
      refine Eq.trans (bmStep _ _ _ _ _ hL) ?_
      refine Eq.trans (bmStep _ _ _ _ _ hR) ?_
      decide
    have hfun : (buildFunction 100 ⟨"main", [], "void", mkBlockStx [.unconditionalLoop (mkBlockStx [] []) 1 1, .ret none 2 1] [], 1, 1⟩).run {} = .ok (progLoopCFG, bldLoopFin) := by
      refine Eq.trans (bmStep _ _ _ _ _ (by decide : (modify (fun s => { s with breakTargets := [], continueTargets := [] }) : BM Unit).run {} = .ok ((), {}))) ?_
      refine Eq.trans (bmStep _ _ _ _ _ (by decide : (unwrapO (some ([] : SymTab))).run {} = .ok (([] : SymTab), {}))) ?_
      refine Eq.trans (bmStep _ _ _ _ _ (by decide : (newBlock [] (some "entry")).run {} = .ok ("BB0", { blockCounter := 1, store := [("BB0", { label := "BB0", meta := some "entry", symtab := [] })] }))) ?_
      refine Eq.trans (bmStep _ _ _ _ _ (by decide : (newBlock [] (some "exit")).run { blockCounter := 1, store := [("BB0", { label := "BB0", meta := some "entry", symtab := [] })] } = .ok ("BB1", { blockCounter := 2, store := [("BB0", { label := "BB0", meta := some "entry", symtab := [] }), ("BB1", { label := "BB1", meta := some "exit", symtab := [] })] }))) ?_
      refine Eq.trans (bmStep _ _ _ _ _ (by decide : (modify (fun s => { s with cfgName := "main", cfgEntry := "BB0", cfgExit := "BB1", curBlock := some "BB0" }) : BM Unit).run { blockCounter := 2, store := [("BB0", { label := "BB0", meta := some "entry", symtab := [] }), ("BB1", { label := "BB1", meta := some "exit", symtab := [] })] } = .ok ((), bldLoopPre))) ?_
      refine Eq.trans (bmStep _ _ _ _ _ (by decide : (appendGetArgs [] 0).run bldLoopPre = .ok ((), bldLoopPre))) ?_
      refine Eq.trans (bmStep _ _ _ _ _ hBB) ?_
      refine Eq.trans (bmStep _ _ _ _ _ (by decide : (curBB).run bldLoopRet = .ok (({ label := "BB7", meta := some "after return", symtab := [] } : BB), bldLoopRet))) ?_
      refine Eq.trans (bmStep _ _ _ _ _ (by decide : (addChildCur "BB1").run bldLoopRet = .ok ((), bldLoopFin))) ?_
      decide
    have hrun : (buildFunctions 100 [⟨"main", [], "void", mkBlockStx [.unconditionalLoop (mkBlockStx [] []) 1 1, .ret none 2 1] [], 1, 1⟩]).run {} = .ok ([progLoopCFG], bldLoopFin) := by
      refine Eq.trans (bmStep _ _ _ _ _ hfun) ?_
      decide
    have e : builderBuild progLoop = Except.map (fun r => r.1) ((buildFunctions 100 [⟨"main", [], "void", mkBlockStx [.unconditionalLoop (mkBlockStx [] []) 1 1, .ret none 2 1] [], 1, 1⟩]).run {}) := rfl
    rw [e, hrun]
    rfl
  · have h1 : computeDominatorTree progLoopCFG = .ok (treeLoop, cfgLoop1) := by decide
    rw [licmRun, h1, exceptOkBind]
    decide

/-- C4.  The claim describes the successor structure of every lowered
Condition with an else-arm.  No Condition is ever lowered: building the
branch condition raises `TypeError`, because the expression class patterns of
`_build_subexpression` name more positional sub-patterns than the AST
dataclasses of parser.py declare (here `IntegerLiteral(_, _, value)` against
the one-field `IntegerLiteral`), so CFG construction fails on every program
containing a Condition.  (Independently, the source restores the
Cmp-emitting block only in the fall-through branch of the else-arm handling,
so even with the lowering fixed an else-arm ending in a Return would leave
the Cmp block with a single successor.)  Evaluated on
`func main() -> void { if (0) { } else { return; } }`. -/
theorem c4_condition_lowering_raises_type_error :
    builderBuild progIfElse =
      .error (.typeError "IntegerLiteral() accepts 1 positional sub-pattern (3 given)") := by
  decide

/-- C5.  The claim describes the `Cmp(cond, 0, else-or-merge, then)`
convention of every lowered Condition.  The emission sites of
`_build_condition` do use exactly that convention, but lowering any
condition expression crashes first with the class-pattern arity `TypeError`
in `_build_subexpression`, so no predicate-evaluation block ending in the
claimed Cmp is ever produced.  Evaluated on
`func main() -> void { if (0) { } }`. -/
theorem c5_condition_cmp_never_emitted :
    builderBuild progIf =
      .error (.typeError "IntegerLiteral() accepts 1 positional sub-pattern (3 given)") := by
  decide

/-- C9 counterexample: the claimed terminator invariant fails on builder
output.  For `func main() -> void { let a [2]int = {}; }` the entry block
has exactly one successor (the exit block) yet ends with the `ArrayInit`,
not an UncondJump or Return: `_build_function` links the final fall-through
block to the exit block without emitting a terminator. -/
theorem c9_terminator_invariant_counterexample :
    builderBuild progArr = .ok [progArrCFG] ∧
    terminatorInvariant progArrCFG = false ∧
    (progArrCFG.blocks.getD progArrCFG.entry).succ = [progArrCFG.exit] ∧
    (progArrCFG.blocks.getD progArrCFG.entry).instructions =
      [.arrayInit { name := "a" } [2]] :=
  ⟨by decide, by decide, by decide, by decide⟩

set_option maxHeartbeats 4000000 in
/-- C9, second failing input: on the CFG built from
`func main() -> void { for { break; return; } }` the reachable loop-body
block `BB3` holds `[UncondJump BB5, Return]` with successors `[BB5, BB1]` —
two successors ending in a Return, not a Cmp — because `_build_break`,
unlike `_build_return`, does not switch to a fresh block, so the `return`
statement is appended to the block the `break` already terminated. -/
theorem c9_break_return_two_successor_ret :
    builderBuild progBrkRet = .ok [progBrkRetCFG] ∧
    "BB3" ∈ cfgIterList progBrkRetCFG ∧
    (progBrkRetCFG.blocks.getD "BB3").succ = ["BB5", "BB1"] ∧
    (progBrkRetCFG.blocks.getD "BB3").instructions.getLast? = some (.ret none) ∧
    terminatorInvariant progBrkRetCFG = false := by
  refine ⟨?_, by decide, by decide, by decide, by decide⟩
  have hL : (buildStatement 98 (Stmt.unconditionalLoop (mkBlockStx [.brk 1 1, .ret none 1 1] []) 1 1)).run bldLoopPre = .ok ((), bldBrkMid) := by decide
  have hBB : (buildBlockB 100 (mkBlockStx [.unconditionalLoop (mkBlockStx [.brk 1 1, .ret none 1 1] []) 1 1] [])).run bldLoopPre = .ok ((), bldBrkMid) := by
    refine Eq.trans (bmStep _ _ _ _ _ (by decide : (requireCur).run bldLoopPre = .ok ("BB0", bldLoopPre))) ?_
    refine Eq.trans (bmStep _ _ _ _ _ hL) ?_
    decide
  have hfun : (buildFunction 100 ⟨"main", [], "void", mkBlockStx [.unconditionalLoop (mkBlockStx [.brk 1 1, .ret none 1 1] []) 1 1] [], 1, 1⟩).run {} = .ok (progBrkRetCFG, bldBrkFin) := by
    refine Eq.trans (bmStep _ _ _ _ _ (by decide : (modify (fun s => { s with breakTargets := [], continueTargets := [] }) : BM Unit).run {} = .ok ((), {}))) ?_
    refine Eq.trans (bmStep _ _ _ _ _ (by decide : (unwrapO (some ([] : SymTab))).run {} = .ok (([] : SymTab), {}))) ?_
    refine Eq.trans (bmStep _ _ _ _ _ (by decide : (newBlock [] (some "entry")).run {} = .ok ("BB0", { blockCounter := 1, store := [("BB0", { label := "BB0", meta := some "entry", symtab := [] })] }))) ?_
    refine Eq.trans (bmStep _ _ _ _ _ (by decide : (newBlock [] (some "exit")).run { blockCounter := 1, store := [("BB0", { label := "BB0", meta := some "entry", symtab := [] })] } = .ok ("BB1", { blockCounter := 2, store := [("BB0", { label := "BB0", meta := some "entry", symtab := [] }), ("BB1", { label := "BB1", meta := some "exit", symtab := [] })] }))) ?_
    refine Eq.trans (bmStep _ _ _ _ _ (by decide : (modify (fun s => { s with cfgName := "main", cfgEntry := "BB0", cfgExit := "BB1", curBlock := some "BB0" }) : BM Unit).run { blockCounter := 2, store := [("BB0", { label := "BB0", meta := some "entry", symtab := [] }), ("BB1", { label := "BB1", meta := some "exit", symtab := [] })] } = .ok ((), bldLoopPre))) ?_
    refine Eq.trans (bmStep _ _ _ _ _ (by decide : (appendGetArgs [] 0).run bldLoopPre = .ok ((), bldLoopPre))) ?_
    refine Eq.trans (bmStep _ _ _ _ _ hBB) ?_
    refine Eq.trans (bmStep _ _ _ _ _ (by decide : (curBB).run bldBrkMid = .ok (({ label := "BB6", meta := some "uncond loop exit", symtab := [], preds := ["BB5"] } : BB), bldBrkMid))) ?_
    refine Eq.trans (bmStep _ _ _ _ _ (by decide : (addChildCur "BB1").run bldBrkMid = .ok ((), bldBrkFin))) ?_
    decide
  have hrun : (buildFunctions 100 [⟨"main", [], "void", mkBlockStx [.unconditionalLoop (mkBlockStx [.brk 1 1, .ret none 1 1] []) 1 1] [], 1, 1⟩]).run {} = .ok ([progBrkRetCFG], bldBrkFin) := by
    refine Eq.trans (bmStep _ _ _ _ _ hfun) ?_
    decide
  have e : builderBuild progBrkRet = Except.map (fun r => r.1) ((buildFunctions 100 [⟨"main", [], "void", mkBlockStx [.unconditionalLoop (mkBlockStx [.brk 1 1, .ret none 1 1] []) 1 1] [], 1, 1⟩]).run {}) := rfl
  rw [e, hrun]
  rfl

/-- C10 counterexample: SCCP is not idempotent.  `sccpCfg` is an SSA-form
CFG (one defining instruction per version, ϕ incoming maps matching the
predecessor lists, consistent pred/succ lists, Cmp terminators on the
two-successor blocks, entry without predecessors, exit without successors),
yet a second run does not leave the CFG produced by the first run
identical. -/
theorem c10_sccp_not_idempotent_counterexample :
    sccpRun sccpCfg = .ok sccpOnceCFG ∧
    ¬ (sccpRun sccpOnceCFG = .ok sccpOnceCFG) :=
  ⟨by decide, by decide⟩

/-- C10 amended: on `sccpCfg` the second run changes exactly the ϕ incoming
map of the join block `BB3`: the first run's fold replaced the constant
`cmp(0, 0)` of `BB2` with a jump and removed `BB2` from `BB3.preds`, but
left the stale incoming entry `BB2: 2` in place because `BB3` had already
been folded earlier in the traversal; the second run drops that entry and
changes nothing else (blocks, instructions, predecessor and successor lists
are unchanged). -/
theorem c10_sccp_idempotence_amended :
    sccpRun sccpCfg = .ok sccpOnceCFG ∧
    (sccpOnceCFG.blocks.getD "BB3").preds = ["BB0"] ∧
    (sccpOnceCFG.blocks.getD "BB3").phiNodes =
      [("y", { lhs := { name := "y", version := some 3 },
               rhs := [("BB0", .const 1), ("BB2", .const 2)] })] ∧
    sccpRun sccpOnceCFG = .ok (withPhiRhs sccpOnceCFG "BB3" "y" [("BB0", .const 1)]) :=
  ⟨by decide, by decide, by decide, by decide⟩

/-- C2.  The claim says LICM never moves an Assign whose right-hand side is
a Call or a Load out of the loop into the preheader.  `_is_hoistable`
rejects only `OpCall`, and `_collect_operands` yields no operands for an
`OpLoad`, so the loop-body instruction `x_v1 = Load(a_v1)` of `licmCfg` —
inside the natural loop {BB4, BB5} with preheader `BB3` — is hoisted into
the preheader. -/
theorem c2_licm_hoists_load_assign :
    (do
      let tc ← computeDominatorTree licmCfg
      findLoops tc.2 tc.1) = .ok [⟨"BB4", "BB3", ["BB4", "BB5"], "BB7"⟩] ∧
    licmLoadInst ∈ (licmCfg.blocks.getD "BB4").instructions ∧
    licmRun licmCfg = .ok licmCfgAfter ∧
    (licmCfgAfter.blocks.getD "BB3").instructions = [licmLoadInst, .uncondJump "BB4"] ∧
    (licmCfgAfter.blocks.getD "BB4").instructions = [.uncondJump "BB5"] := by
  have h1 : computeDominatorTree licmCfg = .ok (treeLicm, cfgLicm1) := by decide
  refine ⟨?_, by decide, ?_, by decide, by decide⟩
  · rw [h1, exceptOkBind]
    decide
  · rw [licmRun, h1, exceptOkBind]
    decide

/-- Inversion of a successful bind in the `Except` monad. -/
theorem exceptBindOk {α β : Type} {x : Except PyErr α} {f : α → Except PyErr β} {b : β}
    (h : (x >>= f) = .ok b) : ∃ a, x = .ok a ∧ f a = .ok b := by
  cases x with
  | error e => exact absurd h (fun hh => Except.noConfusion hh)
  | ok a => exact ⟨a, rfl, h⟩


/-- The feasible-edge membership lemmas for C6: none of the lattice updates
performed while marking an edge touches `feasible_edges` except the single
append of the marked edge itself. -/
theorem setLattice_fe (st : SCCPSt) (k : VKey) (v : LatVal) :
    (setLattice st k v).feasibleEdges = st.feasibleEdges := by
  simp only [setLattice]
  split <;> rfl

theorem markBlockExecutable_fe (l : String) (st : SCCPSt) :
    (markBlockExecutable l st).feasibleEdges = st.feasibleEdges := by
  unfold markBlockExecutable
  split <;> rfl

theorem evaluatePhi_fe (store : BlockStore) (lbl : String) (phi : PhiNode)
    (st st' : SCCPSt) (h : evaluatePhi store lbl phi st = .ok st') :
    st'.feasibleEdges = st.feasibleEdges := by
  unfold evaluatePhi at h
  cases hv : phi.lhs.version with
  | none => rw [hv] at h; exact absurd h (fun hh => Except.noConfusion hh)
  | some ver =>
      rw [hv] at h
      injection h with h
      rw [← h, setLattice_fe]

theorem phiFold_fe (store : BlockStore) (lbl : String) (l : List (String × PhiNode)) :
    ∀ (st st' : SCCPSt),
      (l.foldlM (fun st p => evaluatePhi store lbl p.2 st) st = .ok st') →
      st'.feasibleEdges = st.feasibleEdges := by
  induction l with
  | nil =>
      intro st st' h
      simp only [List.foldlM_nil] at h
      injection h with h
      rw [h]
  | cons p rest ih =>
      intro st st' h
      simp only [List.foldlM_cons] at h
      obtain ⟨mid, h1, h2⟩ := exceptBindOk h
      rw [ih mid st' h2, evaluatePhi_fe store lbl p.2 st mid h1]

theorem updatePhisForEdge_fe (store : BlockStore) (s : String) (st st' : SCCPSt)
    (h : updatePhisForEdge store s st = .ok st') :
    st'.feasibleEdges = st.feasibleEdges :=
  phiFold_fe store s (store.getD s).phiNodes st st' h

theorem markEdgeFeasible_fe (store : BlockStore) (p s : String) (st st' : SCCPSt)
    (h : markEdgeFeasible store p s st = .ok st') :
    ∀ e, e ∈ st'.feasibleEdges ↔ e ∈ st.feasibleEdges ∨ e = (p, s) := by
  unfold markEdgeFeasible at h
  by_cases hm : (p, s) ∈ st.feasibleEdges
  · rw [if_pos hm] at h
    injection h with h
    subst h
    intro e
    constructor
    · exact Or.inl
    · rintro (he | rfl)
      · exact he
      · exact hm
  · rw [if_neg hm] at h
    have hfe : st'.feasibleEdges = st.feasibleEdges ++ [(p, s)] := by
      rw [updatePhisForEdge_fe _ _ _ _ h]
      split
      · rfl
      · rw [markBlockExecutable_fe]
    intro e
    rw [hfe]
    simp [List.mem_append]

theorem latIsNac_not_isConst (v : LatVal) (h : v.isNac) : v.isConst = false := by
  cases v <;> simp_all [LatVal.isNac, LatVal.isConst]

/-- C6.  The claim describes `SCCP._evaluate_branch`: with both operands
CONST exactly the edge to the then-block is marked feasible iff the two
constants are equal and exactly the edge to the else-block otherwise; with a
NAC operand both outgoing edges are marked; with an UNDEF operand and no NAC
the state is returned unchanged (the decision is deferred).  All three parts
hold of the embedding, so the claim is confirmed. -/
theorem c6_sccp_branch_edge_marking (store : BlockStore) (left right : SSAValue)
    (thenL elseL bb : String) (st st' : SCCPSt)
    (h : evaluateBranch store left right thenL elseL bb st = .ok st') :
    (∀ x y : Int, getLatticeOfValue st left = .const x →
        getLatticeOfValue st right = .const y →
        ∀ e, e ∈ st'.feasibleEdges ↔
          e ∈ st.feasibleEdges ∨ e = (bb, if x = y then thenL else elseL)) ∧
    (((getLatticeOfValue st left).isNac ∨ (getLatticeOfValue st right).isNac) →
        ∀ e, e ∈ st'.feasibleEdges ↔
          e ∈ st.feasibleEdges ∨ e = (bb, thenL) ∨ e = (bb, elseL)) ∧
    ((getLatticeOfValue st left = .undef ∨ getLatticeOfValue st right = .undef) →
        ¬ (getLatticeOfValue st left).isNac → ¬ (getLatticeOfValue st right).isNac →
        st' = st) := by
  refine ⟨?_, ?_, ?_⟩
  · intro x y hx hy e
    have ha := h
    unfold evaluateBranch at ha
    rw [hx, hy] at ha
    simp only [LatVal.isConst, LatVal.value?, Bool.and_self, if_true, Option.some.injEq] at ha
    by_cases hxy : x = y
    · rw [if_pos hxy] at ha
      rw [if_pos hxy]
      exact markEdgeFeasible_fe _ _ _ _ _ ha e
    · rw [if_neg hxy] at ha
      rw [if_neg hxy]
      exact markEdgeFeasible_fe _ _ _ _ _ ha e
  · intro hnac e
    have hb := h
    simp only [evaluateBranch] at hb
    have hcf : ((getLatticeOfValue st left).isConst && (getLatticeOfValue st right).isConst) = false := by
      rcases hnac with h1 | h1
      · rw [latIsNac_not_isConst _ h1, Bool.false_and]
      · rw [latIsNac_not_isConst _ h1, Bool.and_false]
    have hno : ((getLatticeOfValue st left).isNac || (getLatticeOfValue st right).isNac) = true := by
      rcases hnac with h1 | h1
      · rw [h1, Bool.true_or]
      · rw [h1, Bool.or_true]
    rw [hcf] at hb
    simp only [Bool.false_eq_true, if_false, hno, if_true] at hb
    obtain ⟨mid, hb1, hb2⟩ := exceptBindOk hb
    rw [markEdgeFeasible_fe _ _ _ _ _ hb2 e, markEdgeFeasible_fe _ _ _ _ _ hb1 e]
    tauto
  · intro hu hn1 hn2
    have hc := h
    simp only [evaluateBranch] at hc
    have hcf : ((getLatticeOfValue st left).isConst && (getLatticeOfValue st right).isConst) = false := by
      rcases hu with h1 | h1
      · rw [h1]; simp [LatVal.isConst]
      · rw [h1]; simp [LatVal.isConst]
    have hno : ((getLatticeOfValue st left).isNac || (getLatticeOfValue st right).isNac) = false := by
      simp only [Bool.not_eq_true] at hn1 hn2
      rw [hn1, hn2]
      rfl
    rw [hcf] at hc
    simp only [Bool.false_eq_true, if_false, hno, if_true] at hc
    injection hc with hc
    exact hc.symm

/-- Witness for C6 at concrete inputs: equal constants from the state
`sccpStW` whose then-edge is already feasible. -/
theorem c6_sccp_branch_edge_marking_witness :
    ("B", "T") ∈ sccpStW.feasibleEdges ↔
      ("B", "T") ∈ sccpStW.feasibleEdges ∨
        ("B", "T") = ("B", if (1 : Int) = 1 then "T" else "E") :=
  (c6_sccp_branch_edge_marking [] (.const 1) (.const 1) "T" "E" "B" sccpStW sccpStW (by decide)).1 1 1 rfl rfl ("B", "T")

/-- C7.  The claim says SCCP folding of `/` or `%` with a constant zero
divisor yields NAC, raises no error, and never yields a CONST: `_eval_binary`
checks the divisor before dividing, so the claim is confirmed. -/
theorem c7_sccp_division_by_zero_nac :
    (∀ x : Int, evalBinary "/" (.const x) (.const 0) = .nac) ∧
    (∀ x : Int, evalBinary "%" (.const x) (.const 0) = .nac) ∧
    (∀ (op : String) (a : LatVal) (k : Int), (op = "/" ∨ op = "%") →
        evalBinary op a (.const 0) ≠ .const k) := by
  refine ⟨?_, ?_, ?_⟩
  · intro x
    simp [evalBinary, LatVal.isNac, LatVal.isConst, LatVal.value?]
  · intro x
    simp [evalBinary, LatVal.isNac, LatVal.isConst, LatVal.value?]
  · intro op a k hop
    rcases hop with rfl | rfl <;>
      cases a <;>
        simp [evalBinary, LatVal.isNac, LatVal.isConst, LatVal.value?]

/-- Witness for C7 at concrete inputs. -/
theorem c7_sccp_division_by_zero_nac_witness :
    evalBinary "/" (.const 7) (.const 0) = .nac ∧
      evalBinary "%" (.const 7) (.const 0) ≠ .const 3 :=
  ⟨c7_sccp_division_by_zero_nac.1 7, c7_sccp_division_by_zero_nac.2.2 "%" (.const 7) 3 (Or.inr rfl)⟩

/-- Liveness-set monotonicity lemmas for C8: every marking step only grows
`live_insts`. -/
theorem addSite_subset (l : List Site) (y : Site) : l ⊆ addSite l y := by
  induction l with
  | nil => intro x hx; cases hx
  | cons z zs ih =>
      intro x hx
      unfold addSite
      split
      · exact hx
      · rcases List.mem_cons.mp hx with rfl | hm
        · exact List.mem_cons_self _ _
        · exact List.mem_cons_of_mem _ (ih hm)

theorem addSite_mem (l : List Site) (y : Site) : y ∈ addSite l y := by
  induction l with
  | nil => exact List.mem_singleton_self _
  | cons z zs ih =>
      unfold addSite
      split
      · next hz => exact hz ▸ List.mem_cons_self _ _
      · exact List.mem_cons_of_mem _ ih

theorem ptrChainLocal_live (lbl : String) (bp : Option (String × Nat)) :
    ∀ (l : List (Nat × Inst)) (st : MarkSt) (r : MarkSt × Bool),
      ptrChainLocal lbl bp l st = .ok r → st.liveInsts ⊆ r.1.liveInsts := by
  intro l
  induction l with
  | nil =>
      intro st r h
      injection h with h
      rw [← h]
      exact fun x hx => hx
  | cons p rest ih =>
      intro st r h
      obtain ⟨i, inst⟩ := p
      cases inst
      case store dst v =>
        simp only [ptrChainLocal] at h
        split at h
        · split at h
          · exact absurd h (fun hh => Except.noConfusion hh)
          · split at h
            · injection h with h
              rw [← h]
              exact fun x hx => hx
            · exact fun x hx => ih _ _ h (addSite_subset _ _ hx)
        · exact ih _ _ h
      all_goals (simp only [ptrChainLocal] at h; exact ih _ _ h)

theorem ptrChainBlockScan_live (lbl : String) (bp : Option (String × Nat)) :
    ∀ (l : List (Nat × Inst)) (st : MarkSt) (r : MarkSt × Bool),
      ptrChainBlockScan lbl bp l st = .ok r → st.liveInsts ⊆ r.1.liveInsts := by
  intro l
  induction l with
  | nil =>
      intro st r h
      injection h with h
      rw [← h]
      exact fun x hx => hx
  | cons p rest ih =>
      intro st r h
      obtain ⟨i, inst⟩ := p
      cases inst
      case store dst v =>
        simp only [ptrChainBlockScan] at h
        split at h
        · split at h
          · injection h with h
            rw [← h]
            exact fun x hx => hx
          · split at h
            · exact absurd h (fun hh => Except.noConfusion hh)
            · split at h
              · split at h
                · exact absurd h (fun hh => Except.noConfusion hh)
                · refine fun x hx => ih _ _ h ?_
                  split
                  · split
                    · exact addSite_subset _ _ hx
                    · exact addSite_subset _ _ hx
                  · split
                    · exact addSite_subset _ _ hx
                    · exact addSite_subset _ _ hx
              · refine fun x hx => ih _ _ h ?_
                split
                · exact addSite_subset _ _ hx
                · exact addSite_subset _ _ hx
        · exact ih _ _ h
      all_goals (simp only [ptrChainBlockScan] at h; exact ih _ _ h)

theorem ptrChainWalk_live (store : BlockStore) (bp : Option (String × Nat)) :
    ∀ (fuel : Nat) (q seen : List String) (st st' : MarkSt),
      ptrChainWalk store bp fuel q seen st = .ok st' → st.liveInsts ⊆ st'.liveInsts := by
  intro fuel
  induction fuel with
  | zero =>
      intro q seen st st' h
      injection h with h
      rw [← h]
      exact fun x hx => hx
  | succ n ih =>
      intro q seen st st' h
      cases q with
      | nil =>
          injection h with h
          rw [← h]
          exact fun x hx => hx
      | cons cur rest =>
          simp only [ptrChainWalk] at h
          split at h
          · exact ih _ _ _ _ h
          · obtain ⟨pr, h1, h2⟩ := exceptBindOk h
            obtain ⟨stm, stop⟩ := pr
            exact fun x hx =>
              ih _ _ _ _ h2 (ptrChainBlockScan_live _ _ _ _ _ h1 hx)

theorem markPointerChain_live (store : BlockStore) (lbl : String) (ptrSeed : SSAVar)
    (seedIdx : Int) (st st' : MarkSt)
    (h : markPointerChain store lbl ptrSeed seedIdx st = .ok st') :
    st.liveInsts ⊆ st'.liveInsts := by
  simp only [markPointerChain] at h
  obtain ⟨pr, h1, h2⟩ := exceptBindOk h
  obtain ⟨stm, stop⟩ := pr
  have hs1 := ptrChainLocal_live _ _ _ _ _ h1
  cases stop with
  | true =>
      simp only [if_true] at h2
      injection h2 with h2
      rw [← h2]
      exact hs1
  | false =>
      simp only [Bool.false_eq_true, if_false] at h2
      exact fun x hx => ptrChainWalk_live _ _ _ _ _ _ _ h2 (hs1 hx)

theorem markValueLive_live (store : BlockStore) (lbl : String) (instIdx : Int)
    (val : SSAValue) (st st' : MarkSt)
    (h : markValueLive store lbl instIdx val st = .ok st') :
    st.liveInsts ⊆ st'.liveInsts := by
  cases val with
  | const k =>
      simp only [markValueLive] at h
      injection h with h
      rw [← h]
      exact fun x hx => hx
  | var sv =>
      simp only [markValueLive] at h
      split at h
      · exact absurd h (fun hh => Except.noConfusion hh)
      · split at h
        · obtain ⟨stm, h1, h2⟩ := exceptBindOk h
          have hs1 := markPointerChain_live _ _ _ _ _ _ h1
          split at h2
          · injection h2 with h2
            rw [← h2]
            exact hs1
          · injection h2 with h2
            rw [← h2]
            exact hs1
        · obtain ⟨stm, h1, h2⟩ := exceptBindOk h
          injection h1 with h1
          subst h1
          split at h2
          · injection h2 with h2
            rw [← h2]
            exact fun x hx => hx
          · injection h2 with h2
            rw [← h2]
            exact fun x hx => hx

theorem foldlM_live {β : Type} (f : MarkSt → β → Except PyErr MarkSt)
    (hf : ∀ (st : MarkSt) (b : β) (st' : MarkSt), f st b = .ok st' →
      st.liveInsts ⊆ st'.liveInsts) :
    ∀ (l : List β) (st st' : MarkSt), l.foldlM f st = .ok st' →
      st.liveInsts ⊆ st'.liveInsts := by
  intro l
  induction l with
  | nil =>
      intro st st' h
      simp only [List.foldlM_nil] at h
      injection h with h
      rw [← h]
      exact fun x hx => hx
  | cons b bs ih =>
      intro st st' h
      simp only [List.foldlM_cons] at h
      obtain ⟨mid, h1, h2⟩ := exceptBindOk h
      exact fun x hx => ih mid st' h2 (hf st b mid h1 hx)

theorem foldlM_estab {β : Type} (f : MarkSt → β → Except PyErr MarkSt)
    (hf : ∀ (st : MarkSt) (b : β) (st' : MarkSt), f st b = .ok st' →
      st.liveInsts ⊆ st'.liveInsts)
    (x : Site) (b0 : β)
    (hest : ∀ (st st' : MarkSt), f st b0 = .ok st' → x ∈ st'.liveInsts) :
    ∀ (l : List β), b0 ∈ l → ∀ (st st' : MarkSt), l.foldlM f st = .ok st' →
      x ∈ st'.liveInsts := by
  intro l
  induction l with
  | nil => intro hb; cases hb
  | cons c cs ih =>
      intro hb st st' h
      simp only [List.foldlM_cons] at h
      obtain ⟨mid, h1, h2⟩ := exceptBindOk h
      rcases List.mem_cons.mp hb with rfl | hbs
      · exact foldlM_live f hf cs mid st' h2 (hest st mid h1)
      · exact ih hbs mid st' h2

theorem seedInst_live (store : BlockStore) (ex lbl : String) (i : Nat) (inst : Inst)
    (st st' : MarkSt) (h : seedInst store ex lbl i inst st = .ok st') :
    st.liveInsts ⊆ st'.liveInsts := by
  cases inst with
  | getArgument lhs n =>
      simp only [seedInst] at h
      split at h
      · split at h
        · exact absurd h (fun hh => Except.noConfusion hh)
        · refine fun x hx => markPointerChain_live _ _ _ _ _ _ h ?_
          exact addSite_subset _ _ hx
      · injection h with h
        rw [← h]
        exact fun x hx => hx
  | assign lhs rhs =>
      cases rhs with
      | val v =>
          simp only [seedInst] at h
          injection h with h
          rw [← h]
          exact fun x hx => hx
      | op oper =>
          cases oper with
          | binary op l r =>
              simp only [seedInst] at h
              split at h
              · obtain ⟨mid, h1, h2⟩ := exceptBindOk h
                refine fun x hx => markValueLive_live _ _ _ _ _ _ h2
                  (markValueLive_live _ _ _ _ _ _ h1 ?_)
                exact addSite_subset _ _ hx
              · injection h with h
                rw [← h]
                exact fun x hx => hx
          | call name args =>
              simp only [seedInst] at h
              refine fun x hx => foldlM_live _
                (fun st b st' hh => markValueLive_live _ _ _ _ _ _ hh) _ _ _ h ?_
              exact addSite_subset _ _ hx
          | load a =>
              simp only [seedInst] at h
              injection h with h
              rw [← h]
              exact fun x hx => hx
          | unary o v =>
              simp only [seedInst] at h
              injection h with h
              rw [← h]
              exact fun x hx => hx
  | ret v? =>
      cases v? with
      | none =>
          simp only [seedInst] at h
          injection h with h
          rw [← h]
          exact addSite_subset _ _
      | some v =>
          simp only [seedInst] at h
          refine fun x hx => markValueLive_live _ _ _ _ _ _ h ?_
          exact addSite_subset _ _ hx
  | cmp l r t e =>
      simp only [seedInst] at h
      obtain ⟨mid, h1, h2⟩ := exceptBindOk h
      refine fun x hx => markValueLive_live _ _ _ _ _ _ h2
        (markValueLive_live _ _ _ _ _ _ h1 ?_)
      exact addSite_subset _ _ hx
  | uncondJump t =>
      simp only [seedInst] at h
      injection h with h
      rw [← h]
      exact fun x hx => hx
  | arrayInit lhs dims =>
      simp only [seedInst] at h
      injection h with h
      rw [← h]
      exact fun x hx => hx
  | store dst v =>
      simp only [seedInst] at h
      injection h with h
      rw [← h]
      exact fun x hx => hx

theorem seedInst_root (store : BlockStore) (ex lbl : String) (i : Nat) (inst : Inst)
    (st st' : MarkSt) (hroot : isDivModRoot inst = true)
    (h : seedInst store ex lbl i inst st = .ok st') :
    Site.instSite lbl i ∈ st'.liveInsts := by
  cases inst with
  | assign lhs rhs =>
      cases rhs with
      | val v => simp [isDivModRoot] at hroot
      | op oper =>
          cases oper with
          | binary op l r =>
              simp only [isDivModRoot] at hroot
              simp only [seedInst] at h
              rw [if_pos hroot] at h
              obtain ⟨mid, h1, h2⟩ := exceptBindOk h
              refine markValueLive_live _ _ _ _ _ _ h2
                (markValueLive_live _ _ _ _ _ _ h1 ?_)
              exact addSite_mem _ _
          | call name args => simp [isDivModRoot] at hroot
          | load a => simp [isDivModRoot] at hroot
          | unary o v => simp [isDivModRoot] at hroot
  | getArgument lhs n => simp [isDivModRoot] at hroot
  | ret v? => simp [isDivModRoot] at hroot
  | cmp l r t e => simp [isDivModRoot] at hroot
  | uncondJump t => simp [isDivModRoot] at hroot
  | arrayInit lhs dims => simp [isDivModRoot] at hroot
  | store dst v => simp [isDivModRoot] at hroot

theorem markLoop_live (store : BlockStore) (defs : List (VKey × Site)) :
    ∀ (fuel : Nat) (st st' : MarkSt), markLoop store defs fuel st = .ok st' →
      st.liveInsts ⊆ st'.liveInsts := by
  intro fuel
  induction fuel with
  | zero =>
      intro st st' h
      injection h with h
      rw [← h]
      exact fun x hx => hx
  | succ n ih =>
      intro st st' h
      simp only [markLoop] at h
      split at h
      · injection h with h
        rw [← h]
        exact fun x hx => hx
      · split at h
        · exact absurd h (fun hh => Except.noConfusion hh)
        · split at h
          · exact fun x hx => ih _ _ h hx
          · split at h
            · split at h
              · exact absurd h (fun hh => Except.noConfusion hh)
              · obtain ⟨mid, h1, h2⟩ := exceptBindOk h
                refine fun x hx => ih _ _ h2 (foldlM_live _
                  (fun st b st' hh => markValueLive_live _ _ _ _ _ _ hh) _ _ _ h1 ?_)
                exact addSite_subset _ _ hx
            · split at h
              · exact fun x hx => ih _ _ h (addSite_subset _ _ hx)
              · exact fun x hx => ih _ _ h (addSite_subset _ _ hx)
              · obtain ⟨ks, h1, h2⟩ := exceptBindOk h
                obtain ⟨mid, h2a, h2b⟩ := exceptBindOk h2
                refine fun x hx => ih _ _ h2b (foldlM_live _
                  (fun st b st' hh => markValueLive_live _ _ _ _ _ _ hh) _ _ _ h2a ?_)
                exact addSite_subset _ _ hx
              · exact absurd h (fun hh => Except.noConfusion hh)

theorem enumFrom_nth {α : Type} :
    ∀ (l : List α) (n i : Nat),
      (List.enumFrom n l).get? i = (l.get? i).map (fun a => (n + i, a)) := by
  intro l
  induction l with
  | nil => intro n i; cases i <;> rfl
  | cons a as ih =>
      intro n i
      cases i with
      | zero => simp [List.enumFrom]
      | succ j =>
          simp only [List.enumFrom, List.get?, ih (n + 1) j]
          cases as.get? j <;> simp [Nat.add_assoc, Nat.add_comm 1 j]

theorem enum_mem {α : Type} (l : List α) (i : Nat) (a : α)
    (h : l.get? i = some a) : (i, a) ∈ l.enum := by
  have he : l.enum.get? i = some (i, a) := by
    show (List.enumFrom 0 l).get? i = some (i, a)
    rw [enumFrom_nth l 0 i, h]
    simp
  exact List.get?_mem he

theorem getSweepMap (l : BlockStore) (iterL : List String) (g : String → BB → BB)
    (lbl : String) (b : BB) (hb : BlockStore.get? l lbl = some b) :
    BlockStore.get? (l.map (fun p => if p.1 ∈ iterL then (p.1, g p.1 p.2) else p)) lbl
      = some (if lbl ∈ iterL then g lbl b else b) := by
  induction l with
  | nil => exact absurd hb (by simp [BlockStore.get?])
  | cons p rest ih =>
      obtain ⟨k, bb⟩ := p
      by_cases hk : k = lbl
      · subst hk
        have hbb : bb = b := by
          simp [BlockStore.get?, List.find?] at hb
          exact hb
        subst hbb
        by_cases hm : k ∈ iterL
        · simp [BlockStore.get?, List.find?, hm]
        · simp [BlockStore.get?, List.find?, hm]
      · have hb' : BlockStore.get? rest lbl = some b := by
          simp [BlockStore.get?, List.find?, hk] at hb ⊢
          exact hb
        have := ih hb'
        by_cases hm : k ∈ iterL
        · simp [BlockStore.get?, List.find?, hk, hm] at this ⊢
          exact this
        · simp [BlockStore.get?, List.find?, hk, hm] at this ⊢
          exact this

theorem mem_sweepInsts (live : List Site) (lbl : String) (b : BB) (i : Nat) (inst : Inst)
    (hi : b.instructions.get? i = some inst) (hroot : isDivModRoot inst = true)
    (hlive : Site.instSite lbl i ∈ live) :
    inst ∈ (sweepBlockInsts live lbl b).instructions := by
  have hkeep : keepInst live lbl i inst = true := by
    cases inst <;> simp_all [isDivModRoot, keepInst]
  have henum : (i, inst) ∈ b.instructions.enum := enum_mem _ _ _ hi
  refine List.mem_map.mpr ⟨(i, inst), List.mem_filter.mpr ⟨henum, ?_⟩, rfl⟩
  exact hkeep

/-- C8.  The claim says DCE never removes an Assign whose right-hand side is
a Binary `/` or `%` whose divisor is an SSA variable or the constant 0:
`_seed_roots` marks every such instruction live and `_sweep` keeps live
instructions, so any such instruction found at an index of a block of the
input CFG is still a member of that block after `DCE.run`.  Confirmed. -/
theorem c8_dce_keeps_division_roots (cfg cfg' : CFG) (h : dceRun cfg = .ok cfg')
    (lbl : String) (b : BB) (hb : BlockStore.get? cfg.blocks lbl = some b)
    (i : Nat) (inst : Inst) (hi : b.instructions.get? i = some inst)
    (hroot : isDivModRoot inst = true) :
    ∃ b', BlockStore.get? cfg'.blocks lbl = some b' ∧ inst ∈ b'.instructions := by
  simp only [dceRun] at h
  obtain ⟨meta, h1, h2⟩ := exceptBindOk h
  obtain ⟨st1, h2a, h2b⟩ := exceptBindOk h2
  obtain ⟨st2, h3a, h3b⟩ := exceptBindOk h2b
  injection h3b with h3b
  subst h3b
  by_cases hmem : lbl ∈ cfgIterList cfg
  · have hgetD : cfg.blocks.getD lbl = b := by
      unfold BlockStore.getD
      rw [hb]
      rfl
    have hseed : Site.instSite lbl i ∈ st1.liveInsts := by
      refine foldlM_estab _
        (fun st bb st' hh =>
          foldlM_live _ (fun st c st' hc => seedInst_live _ _ _ _ _ _ _ hc) _ _ _ hh)
        (Site.instSite lbl i) lbl ?_ (cfgIterList cfg) hmem {} st1 h2a
      intro st st' hsb
      refine foldlM_estab _
        (fun st c st' hc => seedInst_live _ _ _ _ _ _ _ hc)
        (Site.instSite lbl i) (i, inst) ?_
        ((cfg.blocks.getD lbl).instructions.enum) ?_ st st' hsb
      · intro stA stA' hA
        exact seedInst_root _ _ _ _ _ _ _ hroot hA
      · rw [hgetD]
        exact enum_mem _ _ _ hi
    have hlive2 : Site.instSite lbl i ∈ st2.liveInsts :=
      markLoop_live _ _ _ _ _ h3a hseed
    have hg1 := getSweepMap cfg.blocks (cfgIterList cfg)
      (fun l bb => sweepBlockPhis st2.liveInsts l bb) lbl b hb
    rw [if_pos hmem] at hg1
    have hg2 := getSweepMap _ (cfgIterList cfg)
      (fun l bb => sweepBlockInsts st2.liveInsts l bb) lbl _ hg1
    rw [if_pos hmem] at hg2
    refine ⟨_, hg2, ?_⟩
    have hphis : (sweepBlockPhis st2.liveInsts lbl b).instructions.get? i = some inst := hi
    exact mem_sweepInsts _ _ _ _ _ hphis hroot hlive2
  · have hg1 := getSweepMap cfg.blocks (cfgIterList cfg)
      (fun l bb => sweepBlockPhis st2.liveInsts l bb) lbl b hb
    rw [if_neg hmem] at hg1
    have hg2 := getSweepMap _ (cfgIterList cfg)
      (fun l bb => sweepBlockInsts st2.liveInsts l bb) lbl b hg1
    rw [if_neg hmem] at hg2
    exact ⟨b, hg2, List.get?_mem hi⟩

/-- Witness for C8: on `dceCfg` the unused division `dceDivInst` (index 2 of
block BB0) survives `DCE.run` even though its result is never used. -/
theorem c8_dce_keeps_division_roots_witness :
    ∃ b', BlockStore.get? dceCfgAfter.blocks "BB0" = some b' ∧
      dceDivInst ∈ b'.instructions :=
  c8_dce_keeps_division_roots dceCfg dceCfgAfter (by decide) "BB0" dceBB0 (by decide) 2 dceDivInst
    (by decide) (by decide)
